import Mathlib

/-!
# gmt: geomagnetic field tracking tool

A shallow embedding of `src/gmt.c`, `src/gmt.h` and `src/elfcfg.c`: the sampler
`gmSample` with the burst decoding of `i2c_readMagn`, the scheduler arithmetic of `main`,
the day-file writer `writeData`, the runtime buffer index, the device setup
(`setupSensor` and the start of `main`) and the configuration scanner
(`getstrcfgitem`, `getintcfgitem`).  `double` values are embedded as exact rationals, C `int` values as
`Int` (explicitly narrowed where the source narrows them), and every call into the
operating system (bus `ioctl`, `fopen`, the wall clock) is an explicit input.
-/

namespace Gmt

/-! ## Constants of `gmt.h` -/

/-- Device code of the LSM303, `#define GMT_DEVICE_LSM303 0`. -/
def GMT_DEVICE_LSM303 : Int := 0

/-- Device code of the HMC5883, `#define GMT_DEVICE_HMC5883 1`. -/
def GMT_DEVICE_HMC5883 : Int := 1

/-- Full-scale value used for the LSM303, `#define FS_VALUE_LSM303 1.3`. -/
def FS_VALUE_LSM303 : ℚ := 13 / 10

/-- Full-scale value used for the HMC5883, `#define FS_VALUE_HMC5883 0.88`. -/
def FS_VALUE_HMC5883 : ℚ := 88 / 100

/-- Number of consecutive samples averaged to one value, `#define GMT_AVG_COUNT 3`. -/
def GMT_AVG_COUNT : Nat := 3

/-- Rows of the day buffer, `#define MINS_PER_DAY 1400`, commented in the header as
"60 minutes * 24 hours". -/
def MINS_PER_DAY : Nat := 1400

/-- Columns of the day buffer, `#define GMT_AXES 3`. -/
def GMT_AXES : Nat := 3

/-- Divisor of the scale value, `#define SHORT_MAX_DBL 32767.0`. -/
def SHORT_MAX_DBL : ℚ := 32767

/-- Compiled-in data directory, `#define GMT_DATA_PATH "./data"`. -/
def GMT_DATA_PATH : String := "./data"

/-! ## Data model -/

/-- The `magnBuffer` struct of `gmt.h`: one raw reading, three 16-bit axis values. -/
structure magnBuffer where
  mgnX : Int
  mgnY : Int
  mgnZ : Int
  ctrlb : Nat
  deriving DecidableEq

/-- The `databuffer` struct of `gmt.h`: `GMT_AVG_COUNT` scaled values per axis. -/
structure databuffer where
  x : Nat → ℚ
  y : Nat → ℚ
  z : Nat → ℚ

/-- The `sampler_cfg` struct of `gmt.c`. -/
structure sampler_cfg where
  ifh : Int
  ofh : Int
  vcount : Nat
  ecount : Nat
  vBuf : magnBuffer
  addr : Nat
  axes : Int
  fullScale : ℚ
  scaleVal : ℚ
  dx : ℚ
  dy : ℚ
  dz : ℚ
  deriving DecidableEq

/-- The six bytes `inbuf[0..5]` filled by a successful burst read. -/
structure Inbuf where
  b0 : Nat
  b1 : Nat
  b2 : Nat
  b3 : Nat
  b4 : Nat
  b5 : Nat
  deriving DecidableEq

/-- Outcome of the `I2C_RDWR` ioctl of one read attempt: `none` when the ioctl
returns a negative value, otherwise the bytes it stored in `inbuf`. -/
abbrev BusRead := Option Inbuf

/-- Narrowing of an `int` to `short` (16-bit two's complement). -/
def toShort (n : Int) : Int := (n + 32768) % 65536 - 32768

/-- Narrowing to `unsigned char`. -/
def toUchar (n : Nat) : Nat := n % 256

/-- Conversion of an `int` argument to `unsigned int`, as at a call of `sleep`. -/
def toUInt (n : Int) : Nat := (n % 4294967296).toNat

/-! ## Sampler -/

/-- The function `i2c_readMagn`: returns `1` and leaves `*mBuf` alone when the ioctl fails; otherwise
combines the bytes pairwise, high byte first, stores them as `short` and returns `0`. -/
def i2c_readMagn (mBuf : magnBuffer) (io : BusRead) : Int × magnBuffer :=
  match io with
  | none => (1, mBuf)
  | some inbuf =>
    let mgnX := toShort ((Int.ofNat (toUchar inbuf.b0)) * 256 + Int.ofNat (toUchar inbuf.b1))
    let mgnY := toShort ((Int.ofNat (toUchar inbuf.b2)) * 256 + Int.ofNat (toUchar inbuf.b3))
    let mgnZ := toShort ((Int.ofNat (toUchar inbuf.b4)) * 256 + Int.ofNat (toUchar inbuf.b5))
    (0, { mBuf with mgnX := mgnX, mgnY := mgnY, mgnZ := mgnZ })

/-- What `gmSample` does to the outside world, in program order. -/
inductive Event where
  | busRead (attempt : Nat) (ok : Bool)
  | usleep (usec : Nat)
  deriving DecidableEq

/-- Local variables of the read loop of `gmSample`. -/
structure ReadLoop where
  buffer : databuffer
  vBuf : magnBuffer
  valid : Nat → Int
  trace : List Event

/-- One iteration `i` of the read loop of `gmSample` (non-simulation build). -/
def readStep (scaleVal : ℚ) (bus : Nat → BusRead) (s : ReadLoop) (i : Nat) : ReadLoop :=
  let r := i2c_readMagn s.vBuf (bus i)
  let s1 : ReadLoop :=
    if r.1 = 0 then
      { buffer :=
          { x := Function.update s.buffer.x i ((r.2.mgnX : ℚ) * scaleVal)
            y := Function.update s.buffer.y i ((r.2.mgnY : ℚ) * scaleVal)
            z := Function.update s.buffer.z i ((r.2.mgnZ : ℚ) * scaleVal) }
        vBuf := r.2
        valid := Function.update s.valid i 1
        trace := s.trace ++ [Event.busRead i true] }
    else
      { s with vBuf := r.2, trace := s.trace ++ [Event.busRead i false] }
  if i < GMT_AVG_COUNT - 1 then
    { s1 with trace := s1.trace ++ [Event.usleep 250000] }
  else s1

/-- Local variables of the averaging loop of `gmSample`. -/
structure AvgLoop where
  x : ℚ
  y : ℚ
  z : ℚ
  div : ℚ
  r : Int

/-- One iteration `i` of the averaging loop of `gmSample`. -/
def avgStep (buffer : databuffer) (valid : Nat → Int) (a : AvgLoop) (i : Nat) : AvgLoop :=
  if valid i ≠ 0 then
    { r := a.r + 1
      div := a.div + 1
      x := a.x + buffer.x i
      y := a.y + buffer.y i
      z := a.z + buffer.z i }
  else a

/-- Result of one call of `gmSample`: the updated `*gmdata`, the return value, the
bus reads and sleeps performed, and whether the three divisions by `div` ran. -/
structure SampleResult where
  gmdata : sampler_cfg
  ret : Int
  trace : List Event
  divided : Bool

/-- The function `gmSample` (non-simulation build).  `bus i` is the outcome of the ioctl of read
attempt `i`; `buffer0` and `vBuf0` are the uninitialised contents of the locals
`buffer` and `vBuf`. -/
def gmSample (gmdata : sampler_cfg) (bus : Nat → BusRead)
    (buffer0 : databuffer) (vBuf0 : magnBuffer) : SampleResult :=
  let init : ReadLoop := { buffer := buffer0, vBuf := vBuf0, valid := fun _ => 0, trace := [] }
  let rd := (List.range GMT_AVG_COUNT).foldl (readStep gmdata.scaleVal bus) init
  let a0 : AvgLoop := { x := 0, y := 0, z := 0, div := 0, r := 0 }
  let a := (List.range GMT_AVG_COUNT).foldl (avgStep rd.buffer rd.valid) a0
  let divided := decide (a.div > 0)
  let x := if a.div > 0 then a.x / a.div else a.x
  let y := if a.div > 0 then a.y / a.div else a.y
  let z := if a.div > 0 then a.z / a.div else a.z
  { gmdata := { gmdata with dx := x, dy := y, dz := z, vcount := (gmdata.vcount + 1) % 2 ^ 64 }
    ret := a.r
    trace := rd.trace
    divided := divided }

/-- The work-data initialisation of `main`: `fullScale` by device, then
`scaleVal = fullScale / SHORT_MAX_DBL`. -/
def initWorkData (cb : sampler_cfg) (iDev : Int) (dev_addr : Nat) (sampleAxes : Int)
    (device : Int) : sampler_cfg :=
  let fullScale := if device = GMT_DEVICE_LSM303 then FS_VALUE_LSM303 else FS_VALUE_HMC5883
  { cb with ifh := iDev, addr := dev_addr, axes := sampleAxes, fullScale := fullScale,
            scaleVal := fullScale / SHORT_MAX_DBL }

/-! ### Vocabulary for stating the sampler's contract -/

/-- The raw reading `i2c_readMagn` delivers for read attempt `i` (all zero when the
attempt failed). -/
def rawReading (bus : Nat → BusRead) (i : Nat) : magnBuffer :=
  (i2c_readMagn { mgnX := 0, mgnY := 0, mgnZ := 0, ctrlb := 0 } (bus i)).2

/-- The read attempts of one cycle that succeeded, in order. -/
def validReads (bus : Nat → BusRead) : List Nat :=
  (List.range GMT_AVG_COUNT).filter (fun i => (bus i).isSome)

/-- Sum of `raw i * scaleVal` over the attempts in `l`. -/
def scaledSum (raw : Nat → Int) (scaleVal : ℚ) (l : List Nat) : ℚ :=
  (l.map (fun i => (raw i : ℚ) * scaleVal)).sum

/-- The event is a bus read attempt. -/
def Event.isBusRead : Event → Bool
  | Event.busRead _ _ => true
  | Event.usleep _ => false

/-- A bus on which the three attempts of a cycle have the given outcomes. -/
def busOf (r0 r1 r2 : BusRead) : Nat → BusRead := fun i =>
  match i with
  | 0 => r0
  | 1 => r1
  | 2 => r2
  | _ => none

/-- A burst whose X bytes encode `x` (for `0 ≤ x < 32768`) and whose Y, Z bytes are zero. -/
def burstX (x : Nat) : Inbuf := { b0 := x / 256, b1 := x % 256, b2 := 0, b3 := 0, b4 := 0, b5 := 0 }

/-- Some initial work data with the given scale value. -/
def cfgWithScale (scaleVal : ℚ) : sampler_cfg :=
  { ifh := 3, ofh := 0, vcount := 0, ecount := 0,
    vBuf := { mgnX := 0, mgnY := 0, mgnZ := 0, ctrlb := 0 }, addr := 30, axes := 7,
    fullScale := FS_VALUE_LSM303, scaleVal := scaleVal, dx := 0, dy := 0, dz := 0 }

/-- An arbitrary initial content for the local `buffer`. -/
def junkBuffer : databuffer := { x := fun _ => 7, y := fun _ => 8, z := fun _ => 9 }

/-- An arbitrary initial content for the local `vBuf`. -/
def junkVBuf : magnBuffer := { mgnX := 1, mgnY := 2, mgnZ := 3, ctrlb := 0 }

/-- Work data as `main` sets it up for the LSM303: scale value `1.3 / 32767`. -/
def lsmWorkData : sampler_cfg := initWorkData (cfgWithScale 0) 3 30 7 GMT_DEVICE_LSM303

/-- All three reads succeed with raw X values 100, 200, 300. -/
def busAllValid : Nat → BusRead :=
  busOf (some (burstX 100)) (some (burstX 200)) (some (burstX 300))

/-- The second read fails; the first and third deliver raw X values 100 and 300. -/
def busSecondFails : Nat → BusRead := busOf (some (burstX 100)) none (some (burstX 300))

/-- Every read fails. -/
def busAllFail : Nat → BusRead := fun _ => none

/-! ## Scheduler -/

/-- The broken-down time `struct tm`, the fields the program reads. -/
structure tm where
  tm_sec : Int
  tm_min : Int
  tm_hour : Int
  tm_mday : Int
  tm_mon : Int
  tm_year : Int
  deriving DecidableEq

/-- The start-up alignment of `main` (non-simulation build): the argument of the
`sleep` call it makes for clock second `tm_sec`, or `none` when it does not sleep. -/
def startupSleep (tm_sec : Int) : Option Nat :=
  if tm_sec > 5 ∧ tm_sec < 55 then some (toUInt (60 - tm_sec)) else none

/-- Seconds slept at start-up: the `sleep` argument, `0` when `sleep` is not called. -/
def startupDelay (tm_sec : Int) : Nat := (startupSleep tm_sec).getD 0

/-- The end-of-cycle `sleep (60 - ptime->tm_sec)` of the main loop: its argument. -/
def cycleSleep (tm_sec : Int) : Nat := toUInt (60 - tm_sec)

/-- The index `i = 60 * ptime->tm_hour + ptime->tm_min` computed by the main loop. -/
def bufferIndex (ptime : tm) : Int := 60 * ptime.tm_hour + ptime.tm_min

/-- The row of `dData[MINS_PER_DAY][GMT_AXES]` that the main loop stores into, or
`none` when `dData[i]` lies outside the array. -/
def dDataRow (ptime : tm) : Option Nat :=
  let i := bufferIndex ptime
  if 0 ≤ i ∧ i < (MINS_PER_DAY : Int) then some i.toNat else none

/-! ## Formatted output -/

/-- Left padding of `body` with `fill` up to `width` characters. -/
def padLeft (fill : Char) (width : Nat) (body : String) : String :=
  String.mk (List.replicate (width - body.length) fill) ++ body

/-- The `printf` conversion `%<width>d`, with the `0` flag when `zero` is set. -/
def fmtInt (zero : Bool) (width : Nat) (n : Int) : String :=
  let digits := Nat.repr n.natAbs
  let sign := if n < 0 then "-" else ""
  if zero then sign ++ padLeft '0' (width - sign.length) digits
  else padLeft ' ' width (sign ++ digits)

/-- Rounding of the non-negative fraction `n / d` to the nearest integer, ties to even. -/
def roundHalfEven (n d : Nat) : Nat :=
  let q := n / d
  let r := n % d
  if 2 * r > d then q + 1
  else if 2 * r < d then q
  else if q % 2 = 0 then q else q + 1

/-- The `printf` conversion `%<width>.<prec>lf` of a finite value, with the `0` flag
when `zero` is set: fixed notation, `prec` digits after the decimal point. -/
def fmtFixed (zero : Bool) (width prec : Nat) (v : ℚ) : String :=
  let scaled := roundHalfEven (v.num.natAbs * 10 ^ prec) v.den
  let whole := Nat.repr (scaled / 10 ^ prec)
  let frac := if prec = 0 then "" else "." ++ padLeft '0' prec (Nat.repr (scaled % 10 ^ prec))
  let sign := if v < 0 then "-" else ""
  if zero then sign ++ padLeft '0' (width - sign.length) (whole ++ frac)
  else padLeft ' ' width (sign ++ whole ++ frac)

/-- Precision `printf` uses for `%lf` when the conversion gives none. -/
def DEFAULT_PRECISION : Nat := 6

/-! ## Persistence writer -/

/-- The function-local statics of `writeData`. -/
structure WriterState where
  dsCount : Int
  mday : Int
  deriving DecidableEq

/-- Values of the statics before the first call: `dsCount = 0`, `mday = 0`. -/
def WriterState.initial : WriterState := { dsCount := 0, mday := 0 }

/-- Outcome of one call of `writeData`: return value, statics afterwards, the
directory given to `stat`, the directory given to `mkdir` (if called), the path given
to `fopen`, and the strings given to `fputs` in order. -/
structure WriteResult where
  ret : Int
  state : WriterState
  statPath : String
  mkdirPath : Option String
  openPath : String
  written : List String
  deriving DecidableEq

/-- The path `writeData` builds with
`sprintf (fbuf, "%s/%4d_%02d_%02d.dat", GMT_DATA_PATH, tm_year + 2000, tm_mon+1, tm_mday)`. -/
def dataFilePath (ptime : tm) : String :=
  GMT_DATA_PATH ++ "/" ++ fmtInt false 4 (ptime.tm_year + 2000) ++ "_" ++
    fmtInt true 2 (ptime.tm_mon + 1) ++ "_" ++ fmtInt true 2 ptime.tm_mday ++ ".dat"

/-- The `#start time` line of the header:
`"#start time : %02d.%02d.%4d, %02d:%02d\n"` of month, day, `tm_year + 1900`, hour, minute. -/
def startTimeLine (ptime : tm) : String :=
  "#start time : " ++ fmtInt true 2 (ptime.tm_mon + 1) ++ "." ++ fmtInt true 2 ptime.tm_mday ++
    "." ++ fmtInt false 4 (ptime.tm_year + 1900) ++ ", " ++ fmtInt true 2 ptime.tm_hour ++ ":" ++
    fmtInt true 2 ptime.tm_min ++ "\n"

/-- The four strings of the header block, in the order `writeData` writes them. -/
def headerBlock (gmdata : sampler_cfg) (ptime : tm) : List String :=
  [ "# -- geomagnetism data, per minute --\n",
    startTimeLine ptime,
    "# format :\n# HH:MM, X_data, Y_data, Z_data\n",
    "# fullscale value = " ++ fmtFixed false 0 5 gmdata.fullScale ++ " Ga\n" ]

/-- The data line, `sprintf (fbuf, "%02d:%02d, %.5lf, %.05lf, %05lf\n", hour, min, dx, dy, dz)`. -/
def dataLine (gmdata : sampler_cfg) (ptime : tm) : String :=
  fmtInt true 2 ptime.tm_hour ++ ":" ++ fmtInt true 2 ptime.tm_min ++ ", " ++
    fmtFixed false 0 5 gmdata.dx ++ ", " ++ fmtFixed false 0 5 gmdata.dy ++ ", " ++
    fmtFixed true 5 DEFAULT_PRECISION gmdata.dz ++ "\n"

/-- The function `writeData`.  `ptime` is the local time it reads, `statFails` whether
`stat (GMT_DATA_PATH)` returns `-1`, `fopenOk` whether `fopen (fbuf, "a+")` succeeds. -/
def writeData (gmdata : sampler_cfg) (st : WriterState) (ptime : tm)
    (statFails fopenOk : Bool) : WriteResult :=
  let mkdirPath := if statFails then some GMT_DATA_PATH else none
  let fbuf := dataFilePath ptime
  if ¬ fopenOk then
    { ret := 1, state := st, statPath := GMT_DATA_PATH, mkdirPath := mkdirPath,
      openPath := fbuf, written := [] }
  else
    let dsCount := if ptime.tm_mday ≠ st.mday then 0 else st.dsCount
    let header := if dsCount = 0 then headerBlock gmdata ptime else []
    { ret := 0
      state := { dsCount := dsCount + 1, mday := ptime.tm_mday }
      statPath := GMT_DATA_PATH
      mkdirPath := mkdirPath
      openPath := fbuf
      written := header ++ [dataLine gmdata ptime] }

/-! ### Vocabulary for stating the writer's contract: calendar days -/

/-- Gregorian leap-year rule for calendar year `y`. -/
def isLeapYear (y : Int) : Bool := (y % 4 = 0 ∧ y % 100 ≠ 0) ∨ y % 400 = 0

/-- Number of days of month `mon` (`0` = January, as in `tm_mon`) of calendar year `y`. -/
def daysInMonth (y mon : Int) : Int :=
  if mon = 1 then (if isLeapYear y then 29 else 28)
  else if mon = 3 ∨ mon = 5 ∨ mon = 8 ∨ mon = 10 then 30
  else 31

/-- The date fields of `t` denote a calendar date. -/
def validDate (t : tm) : Prop :=
  0 ≤ t.tm_mon ∧ t.tm_mon ≤ 11 ∧ 1 ≤ t.tm_mday ∧
    t.tm_mday ≤ daysInMonth (t.tm_year + 1900) t.tm_mon

instance (t : tm) : Decidable (validDate t) := by unfold validDate; infer_instance

/-- The day key of a timestamp: calendar year, month (1..12), day of month. -/
def dayKey (t : tm) : Int × Int × Int := (t.tm_year + 1900, t.tm_mon + 1, t.tm_mday)

/-- The timestamp `b` falls on the calendar day after the one of `a`. -/
def isNextDay (a b : tm) : Prop :=
  if a.tm_mday < daysInMonth (a.tm_year + 1900) a.tm_mon then
    b.tm_year = a.tm_year ∧ b.tm_mon = a.tm_mon ∧ b.tm_mday = a.tm_mday + 1
  else if a.tm_mon < 11 then
    b.tm_year = a.tm_year ∧ b.tm_mon = a.tm_mon + 1 ∧ b.tm_mday = 1
  else
    b.tm_year = a.tm_year + 1 ∧ b.tm_mon = 0 ∧ b.tm_mday = 1

instance (a b : tm) : Decidable (isNextDay a b) := by unfold isNextDay; infer_instance

/-- Reading of a string of decimal digits as a number. -/
def digitsValue (s : String) : Nat :=
  s.data.foldl (fun acc c => 10 * acc + (c.toNat - 48)) 0

/-- Noon of 15 January 2025. -/
def jan15 : tm := { tm_sec := 0, tm_min := 0, tm_hour := 12, tm_mday := 15, tm_mon := 0, tm_year := 125 }

/-- One minute past noon of 15 January 2025. -/
def jan15Later : tm := { jan15 with tm_min := 1 }

/-- Noon of 16 January 2025. -/
def jan16 : tm := { jan15 with tm_mday := 16 }

/-- Noon of 15 February 2025. -/
def feb15 : tm := { jan15 with tm_mon := 1 }

/-- Timestamp 13:01 on 20 April 2025. -/
def apr20 : tm := { tm_sec := 0, tm_min := 1, tm_hour := 13, tm_mday := 20, tm_mon := 3, tm_year := 125 }

/-- Timestamp 23:20 on 20 April 2025. -/
def apr20Night : tm := { apr20 with tm_hour := 23, tm_min := 20 }

/-- A sample with all three axes at one half. -/
def halfSample : sampler_cfg := { lsmWorkData with dx := 1 / 2, dy := 1 / 2, dz := 1 / 2 }

/-! ## Device setup (`setSensorConfig`, `i2c_write`, `setupSensor`, start of `main`) -/

/-- Seven-bit bus address of the LSM303, `#define DEVICE_ADDRESS_LSM303 (0x3C >> 1)`. -/
def DEVICE_ADDRESS_LSM303 : Nat := 0x3C >>> 1

/-- Seven-bit bus address of the HMC5883, `#define DEVICE_ADDRESS_HMC5883 (0x3C >> 1)`. -/
def DEVICE_ADDRESS_HMC5883 : Nat := 0x3C >>> 1

/-- Prefix of the bus device name, `#define I2C_NAME_BASE "/dev/i2c-"`. -/
def I2C_NAME_BASE : String := "/dev/i2c-"

/-- The `elfSenseConfig` struct of `gmt.h` (the pipe name, which nothing reads, is
left out). -/
structure elfSenseConfig where
  device : Int
  i2cBus : Int
  sampleRate : Int
  sampleAxes : Int
  fullScale : ℚ
  deriving DecidableEq

/-- The `deviceConfig` struct of `gmt.h`, all fields `unsigned char`. -/
structure deviceConfig where
  dev_addr : Nat
  adr_cra : Nat
  adr_crb : Nat
  adr_mr : Nat
  regm_cra : Nat
  regm_crb : Nat
  regm_mr : Nat
  deriving DecidableEq

/-- The function `setSensorConfig`: fills `*dcfg` and `pecfg->fullScale` by device. -/
def setSensorConfig (pecfg : elfSenseConfig) : elfSenseConfig × deviceConfig :=
  if pecfg.device = GMT_DEVICE_LSM303 then
    ({ pecfg with fullScale := FS_VALUE_LSM303 },
     { dev_addr := DEVICE_ADDRESS_LSM303
       adr_cra := ((pecfg.sampleRate * 4) % 256).toNat
       adr_crb := 0x01, adr_mr := 0x02
       regm_cra := 0x1C, regm_crb := 0x20, regm_mr := 0x00 })
  else
    ({ pecfg with fullScale := FS_VALUE_HMC5883 },
     { dev_addr := DEVICE_ADDRESS_HMC5883
       adr_cra := ((pecfg.sampleRate * 4) % 256).toNat
       adr_crb := 0x01, adr_mr := 0x02
       regm_cra := 0x10, regm_crb := 0x00, regm_mr := 0x00 })

/-- One register write put on the bus: the message `{reg, data}` sent to `slave_addr`. -/
structure I2cWrite where
  slave_addr : Nat
  reg : Nat
  data : Nat
  deriving DecidableEq

/-- The function `i2c_write`: builds the two-byte message `{reg, data}` for `slave_addr`
and returns `-1` when the `I2C_RDWR` ioctl fails, else `0`.  Returns the return value
and the message handed to the ioctl. -/
def i2c_write (slave_addr reg data : Nat) (ioctlOk : Bool) : Int × I2cWrite :=
  (if ioctlOk then 0 else -1, { slave_addr := slave_addr, reg := reg, data := data })

/-- Outcome of `setupSensor`: return value and the register writes attempted, in order. -/
structure SetupResult where
  ret : Int
  writes : List I2cWrite
  deriving DecidableEq

/-- The function `setupSensor`.  `io k` tells whether the ioctl of the `k`-th
`i2c_write` call (counted from 0) succeeds. -/
def setupSensor (dcfg : deviceConfig) (io : Nat → Bool) : SetupResult :=
  let w1 := i2c_write dcfg.dev_addr dcfg.adr_cra dcfg.regm_cra (io 0)
  if w1.1 < 0 then
    { ret := 1, writes := [w1.2] }
  else
    let w2 := i2c_write dcfg.dev_addr dcfg.adr_crb dcfg.regm_crb (io 1)
    if w2.1 < 0 then
      { ret := 2, writes := [w1.2, w2.2] }
    else
      let w3 := i2c_write dcfg.dev_addr dcfg.adr_mr dcfg.regm_mr (io 2)
      if w3.1 < 0 then
        { ret := 3, writes := [w1.2, w2.2, w3.2] }
      else
        { ret := 0, writes := [w1.2, w2.2, w3.2] }

/-- The CRA write: value `dcfg->regm_cra` to register `dcfg->adr_cra`. -/
def writeCRA (dcfg : deviceConfig) : I2cWrite :=
  { slave_addr := dcfg.dev_addr, reg := dcfg.adr_cra, data := dcfg.regm_cra }

/-- The CRB write: value `dcfg->regm_crb` to register `dcfg->adr_crb`. -/
def writeCRB (dcfg : deviceConfig) : I2cWrite :=
  { slave_addr := dcfg.dev_addr, reg := dcfg.adr_crb, data := dcfg.regm_crb }

/-- The MR write: value `dcfg->regm_mr` to register `dcfg->adr_mr`. -/
def writeMR (dcfg : deviceConfig) : I2cWrite :=
  { slave_addr := dcfg.dev_addr, reg := dcfg.adr_mr, data := dcfg.regm_mr }

/-- Outcome of the start of `main` (non-simulation build): the exit status when `main`
returns before the main loop (`none` when it goes on), the device name opened, the
register writes attempted and what was printed on `stdout`. -/
structure StartupResult where
  exit : Option Int
  devName : String
  writes : List I2cWrite
  stdout : List String
  deriving DecidableEq

/-- The start of `main` after `getConfig` (non-simulation build): open the bus device,
set the sensor configuration, run `setupSensor`.  `escfg` is the configuration after
`getConfig`, `fd` the value returned by `open`, `io` the outcomes of the register
writes.  The two bus-setting ioctls, whose results `main` ignores, are left out. -/
def mainStartup (escfg : elfSenseConfig) (fd : Int) (io : Nat → Bool) : StartupResult :=
  let devName := I2C_NAME_BASE ++ fmtInt false 0 escfg.i2cBus
  if fd < 0 then
    { exit := some 10, devName := devName, writes := [], stdout := [] }
  else
    let r := setupSensor (setSensorConfig escfg).2 io
    if r.ret ≠ 0 then
      { exit := some 20, devName := devName, writes := r.writes
        stdout := ["setupSensor() ret = " ++ fmtInt false 0 r.ret ++ ", error !\n"] }
    else
      { exit := none, devName := devName, writes := r.writes, stdout := [] }

/-- The function `initDefaultCfg`: LSM303 on bus 1 at rate index 1, all three axes
(the full-scale value is not set by it and is taken as given). -/
def initDefaultCfg (pcfg : elfSenseConfig) : elfSenseConfig :=
  { pcfg with device := GMT_DEVICE_LSM303, i2cBus := 1, sampleRate := 1, sampleAxes := 7 }

/-- The default configuration, from a zeroed struct. -/
def defaultCfg : elfSenseConfig :=
  initDefaultCfg { device := 0, i2cBus := 0, sampleRate := 0, sampleAxes := 0, fullScale := 0 }

/-- Register-write outcomes in which exactly the `k`-th write (from 0) fails. -/
def failAt (k : Nat) : Nat → Bool := fun i => decide (i ≠ k)

/-- Position (from 1) of the first failing write among the three, `0` when none fails. -/
def firstFailing (io : Nat → Bool) : Int :=
  match [io 0, io 1, io 2].indexOf false with
  | 0 => 1
  | 1 => 2
  | 2 => 3
  | _ => 0

/-- Big-endian two-byte value read as a 16-bit two's-complement number. -/
def be16 (hi lo : Nat) : Int :=
  if 256 * (hi : Int) + lo < 32768 then 256 * (hi : Int) + lo else 256 * (hi : Int) + lo - 65536

/-- Every byte of the burst is a byte value, `0..255`. -/
def Inbuf.isBytes (b : Inbuf) : Prop :=
  b.b0 ≤ 255 ∧ b.b1 ≤ 255 ∧ b.b2 ≤ 255 ∧ b.b3 ≤ 255 ∧ b.b4 ≤ 255 ∧ b.b5 ≤ 255

instance (b : Inbuf) : Decidable b.isBytes := by unfold Inbuf.isBytes; infer_instance

/-- The high and low byte that encode the 16-bit value `v`. -/
def bytesOf (v : Int) : Nat × Nat := ((v % 65536).toNat / 256, (v % 65536).toNat % 256)

/-! ## Configuration scanner (`elfcfg.c`)

C strings and the text of the configuration file are lists of characters; a pointer
into a string is the part of the string from that position on. -/

/-- Limit of the upper-casing loop, `#define CFG_STR_MAX 256`. -/
def CFG_STR_MAX : Nat := 256

/-- Size of the path buffer, `#define FILENAME_MAXSIZE 256`. -/
def FILENAME_MAXSIZE : Nat := 256

/-- The terminating character of a C string. -/
def NUL : Char := Char.ofNat 0

/-- The C string held in a buffer: its characters before the first `NUL`. -/
def cstr (buf : List Char) : List Char := buf.takeWhile (fun c => c ≠ NUL)

/-- Characters `fgets` takes from the stream when it may store at most `k` of them:
up to and including the first newline. Returns them and the rest of the stream. -/
def fgetsAux : Nat → List Char → List Char × List Char
  | 0, s => ([], s)
  | _ + 1, [] => ([], [])
  | k + 1, c :: s =>
    if c = '\n' then ([c], s)
    else (c :: (fgetsAux k s).1, (fgetsAux k s).2)

/-- The call `fgets (lbuf, size, pf)` on the rest `s` of the file: `none` (a `NULL`
result) at end of file, else the characters stored and the rest of the file. -/
def fgets (size : Nat) (s : List Char) : Option (List Char × List Char) :=
  if s = [] then none else some (fgetsAux (size - 1) s)

/-- The C function `toupper` in the C locale. -/
def toupper (c : Char) : Char := c.toUpper

/-- The function `strupr`: upper-cases the first `CFG_STR_MAX` characters of a string. -/
def strupr (str : List Char) : List Char :=
  (str.take CFG_STR_MAX).map toupper ++ str.drop CFG_STR_MAX

/-- The C function `strstr`: the string from the first occurrence of `needle` on,
`none` (a `NULL` result) when `needle` does not occur. -/
def strstr : List Char → List Char → Option (List Char)
  | [], needle => if needle = [] then some [] else none
  | c :: hay, needle =>
    if needle.isPrefixOf (c :: hay) then some (c :: hay) else strstr hay needle

/-- The C function `strchr` for a character other than `NUL`: the string from the first
occurrence of `c` on, `none` when `c` does not occur. -/
def strchr (s : List Char) (c : Char) : Option (List Char) :=
  match s.dropWhile (fun d => d ≠ c) with
  | [] => none
  | r => some r

/-- The body of the read loop shared by `getstrcfgitem` and `getintcfgitem`, applied
to the characters `fgets` stored: `some p` when the line yields the value string `p`
(the loop then leaves), `none` when the loop goes on to the next line. -/
def lineValue (pItem : List Char) (stored : List Char) : Option (List Char) :=
  let lbuf := strupr (cstr stored)
  if lbuf.head? = some '#' then none
  else
    let lbuf := lbuf.takeWhile (fun c => c ≠ '\n')
    match strstr lbuf pItem with
    | none => none
    | some p =>
      match strchr (p.drop pItem.length) '=' with
      | none => none
      | some pr =>
        let v := (pr.drop 1).dropWhile (fun c => c = ' ' ∨ c = '\t')
        if v ≠ [] ∧ v.head? ≠ some '\n' then some v else none

/-- The read loop shared by `getstrcfgitem` and `getintcfgitem`: reads lines with
`fgets (lbuf, 255, pf)` until one yields a value or the file ends.  Every `fgets` takes
at least one character, so `fuel` equal to the length of the file is never used up
before the end of the file. -/
def findItem (pItem : List Char) : Nat → List Char → Option (List Char)
  | 0, _ => none
  | fuel + 1, s =>
    match fgets 255 s with
    | none => none
    | some (stored, rest) =>
      match lineValue pItem stored with
      | some p => some p
      | none => findItem pItem fuel rest

/-- The function `getstrcfgitem`.  `pf` is the text of the open file (`none` for a
`NULL` file pointer), `ptarget` the content of the target buffer before the call.
Returns the return value and the content of the target buffer afterwards. -/
def getstrcfgitem (pf : Option (List Char)) (pItem : List Char) (ptarget : List Char) :
    Int × List Char :=
  match pf with
  | none => (0, ptarget)
  | some text =>
    match findItem (cstr pItem) text.length text with
    | some p => (1, p)
    | none => (0, ptarget)

/-- The C function `isspace` in the C locale. -/
def isspace (c : Char) : Bool :=
  c = ' ' ∨ (9 ≤ c.toNat ∧ c.toNat ≤ 13)

/-- Largest `long` (64 bit). -/
def LONG_MAX : Int := 9223372036854775807

/-- Smallest `long` (64 bit). -/
def LONG_MIN : Int := -9223372036854775808

/-- The C function `strtol (p, &pe, 10)`: the value, and whether `pe != p` afterwards
(whether a number was converted). -/
def strtol (p : List Char) : Int × Bool :=
  let s := p.dropWhile isspace
  let neg := s.head? = some '-'
  let s := if s.head? = some '-' ∨ s.head? = some '+' then s.drop 1 else s
  let digits := s.takeWhile Char.isDigit
  if digits = [] then (0, false)
  else
    let n : Int := digits.foldl (fun acc c => 10 * acc + ((c.toNat : Int) - 48)) 0
    let v := if neg then -n else n
    (max LONG_MIN (min LONG_MAX v), true)

/-- Narrowing of a `long` to `int` (32-bit two's complement). -/
def toInt32 (n : Int) : Int := (n + 2147483648) % 4294967296 - 2147483648

/-- The function `getintcfgitem`.  `pf` is the text of the open file (`none` for a
`NULL` file pointer), `pvalue` the content of `*pvalue` before the call.  Returns the
return value and the content of `*pvalue` afterwards. -/
def getintcfgitem (pf : Option (List Char)) (pItem : List Char) (pvalue : Int) : Int × Int :=
  match pf with
  | none => (0, pvalue)
  | some text =>
    match findItem (cstr pItem) text.length text with
    | some p =>
      let i := toInt32 (strtol p).1
      if i ≠ 0 ∧ (strtol p).2 then (1, i) else (0, pvalue)
    | none => (0, pvalue)

/-- The data-path block of `getConfig`: when the item named `key` (the macro
`GMT_CFG_DATAPATH`, whose definition is not in `gmt.h`) is found with a non-empty value,
the value is copied into `datapath`, cut to `FILENAME_MAXSIZE - 1` characters. -/
def getConfigDatapath (pcf : Option (List Char)) (key : List Char) (px datapath : List Char) :
    List Char :=
  let r := getstrcfgitem pcf key px
  if r.1 ≠ 0 then
    if (cstr r.2).length > 0 then (cstr r.2).take (FILENAME_MAXSIZE - 1) else datapath
  else datapath

/-- The bus block of `getConfig`: when the integer item named `key` (the macro
`GMT_CFG_BUS`, whose definition is not in `gmt.h`) is read, it becomes the bus number. -/
def getConfigBus (pcf : Option (List Char)) (key : List Char) (pecfg : elfSenseConfig) :
    elfSenseConfig :=
  let r := getintcfgitem pcf key (-1)
  if r.1 ≠ 0 then { pecfg with i2cBus := r.2 } else pecfg

/-! ### Vocabulary for stating the scanner's contract -/

/-- A line of a configuration text: no newline and no `NUL` inside, and short enough
(at most 253 characters) for `fgets (lbuf, 255, pf)` to take it whole with its newline. -/
def IsCfgLine (l : List Char) : Prop :=
  '\n' ∉ l ∧ NUL ∉ l ∧ l.length ≤ 253

instance (l : List Char) : Decidable (IsCfgLine l) := by unfold IsCfgLine; infer_instance

/-- The text made of the given lines, each followed by a newline. -/
def joinLines : List (List Char) → List Char
  | [] => []
  | l :: ls => l ++ '\n' :: joinLines ls

/-- The part of `line` from the first place on where `key` stands in any letter case,
that is where the next characters of the line equal `key` up to the case of letters. -/
def findKeyAnyCase : List Char → List Char → Option (List Char)
  | [], key => if key = [] then some [] else none
  | c :: line, key =>
    if ((c :: line).take key.length).map toupper = key.map toupper then some (c :: line)
    else findKeyAnyCase line key

/-- The value a configuration line holds for `key`: none for a line beginning with
`#`; otherwise the text after the first `=` that follows the first occurrence of `key`
in any letter case, leading spaces and tabs skipped, if it is not empty; the value is
that text in upper case. -/
def cfgValue (key line : List Char) : Option (List Char) :=
  if line.head? = some '#' then none
  else
    match findKeyAnyCase line key with
    | none => none
    | some p =>
      match strchr (p.drop key.length) '=' with
      | none => none
      | some pr =>
        let v := (pr.drop 1).dropWhile (fun c => c = ' ' ∨ c = '\t')
        if v = [] then none else some (v.map toupper)

/-- The value found by the same steps in the upper-cased line with the key as it is. -/
def upperLineValue (key line : List Char) : Option (List Char) :=
  if line.head? = some '#' then none
  else
    match strstr (line.map toupper) key with
    | none => none
    | some p =>
      match strchr (p.drop key.length) '=' with
      | none => none
      | some pr =>
        let v := (pr.drop 1).dropWhile (fun c => c = ' ' ∨ c = '\t')
        if v = [] then none else some v

/-- The first `writeData` call of a run whose configuration file has the text `pcf`:
the content of `datapath` after `getConfig` and the outcome of the call. -/
def configThenWrite (pcf : Option (List Char)) (key : List Char) (gmdata : sampler_cfg)
    (ptime : tm) (statFails fopenOk : Bool) : List Char × WriteResult :=
  (getConfigDatapath pcf key [] GMT_DATA_PATH.data,
   writeData gmdata WriterState.initial ptime statFails fopenOk)

/-- A sample configuration text: a comment, a device line, the data-path line, and a
second data-path line after it. -/
def sampleCfgPre : List (List Char) := ["# datapath=/x".data, "device=lsm303".data]

/-- The first line of the sample text that holds a data path. -/
def sampleCfgLine : List Char := "datapath = ./out".data

/-- What follows that line in the sample text. -/
def sampleCfgPost : List Char := "DATAPATH=/y\n".data

/-- A comment line whose first 254 characters are followed by a data-path setting. -/
def longCommentLine : List Char := '#' :: List.replicate 253 'x' ++ "DATAPATH=/y".data

/-- A text consisting of that comment line alone. -/
def longCommentCfg : List Char := longCommentLine ++ ['\n']

/-- A line of the day file is a header line: it begins with `#`. -/
def isHeaderLine (s : String) : Bool := s.data.head? = some '#'

/-! ## Theorems -/

/-! ### Sampler -/

/-- C1: in a cycle of `gmSample` with `k ≥ 1` successful bus reads, each of `dx`, `dy`,
`dz` is the sum of `raw_i * scaleVal` over exactly the successful reads, divided by
`k`; failed reads and the uninitialised locals contribute nothing. -/
theorem gmSample_mean_of_valid (gmdata : sampler_cfg) (bus : Nat → BusRead)
    (buffer0 : databuffer) (vBuf0 : magnBuffer) (hk : 1 ≤ (validReads bus).length) :
    (gmSample gmdata bus buffer0 vBuf0).gmdata.dx
        = scaledSum (fun i => (rawReading bus i).mgnX) gmdata.scaleVal (validReads bus)
            / ((validReads bus).length : ℚ) ∧
    (gmSample gmdata bus buffer0 vBuf0).gmdata.dy
        = scaledSum (fun i => (rawReading bus i).mgnY) gmdata.scaleVal (validReads bus)
            / ((validReads bus).length : ℚ) ∧
    (gmSample gmdata bus buffer0 vBuf0).gmdata.dz
        = scaledSum (fun i => (rawReading bus i).mgnZ) gmdata.scaleVal (validReads bus)
            / ((validReads bus).length : ℚ) := by
  rcases h0 : bus 0 with _ | b0 <;> rcases h1 : bus 1 with _ | b1 <;>
    rcases h2 : bus 2 with _ | b2 <;>
    simp [gmSample, validReads, scaledSum, rawReading, readStep, avgStep, i2c_readMagn,
      GMT_AVG_COUNT, List.range_succ, List.filter, h0, h1, h2, Function.update] at hk ⊢
  all_goals norm_num
  all_goals (refine ⟨?_, ?_, ?_⟩ <;> ring)

/-- C1, the spec's scenarios: at scale `1.3 / 32767` the raw X readings 100, 200, 300
average to `200 * 1.3 / 32767`, and so do 100, failure, 300 (divided by 2, not 3). -/
theorem gmSample_mean_of_valid_witness :
    (1 ≤ (validReads busAllValid).length ∧
      (gmSample lsmWorkData busAllValid junkBuffer junkVBuf).gmdata.dx
        = 200 * (13 / 10) / 32767) ∧
    (1 ≤ (validReads busSecondFails).length ∧
      (gmSample lsmWorkData busSecondFails junkBuffer junkVBuf).gmdata.dx
        = 200 * (13 / 10) / 32767) := by
  refine ⟨⟨by decide, ?_⟩, ⟨by decide, ?_⟩⟩
  · rw [(gmSample_mean_of_valid lsmWorkData busAllValid junkBuffer junkVBuf (by decide)).1]
    norm_num [validReads, scaledSum, rawReading, i2c_readMagn, GMT_AVG_COUNT, List.range_succ,
      List.filter, busAllValid, busOf, burstX, toShort, toUchar, lsmWorkData, initWorkData,
      cfgWithScale, FS_VALUE_LSM303, SHORT_MAX_DBL, GMT_DEVICE_LSM303]
  · rw [(gmSample_mean_of_valid lsmWorkData busSecondFails junkBuffer junkVBuf (by decide)).1]
    norm_num [validReads, scaledSum, rawReading, i2c_readMagn, GMT_AVG_COUNT, List.range_succ,
      List.filter, busSecondFails, busOf, burstX, toShort, toUchar, lsmWorkData, initWorkData,
      cfgWithScale, FS_VALUE_LSM303, SHORT_MAX_DBL, GMT_DEVICE_LSM303]

/-- C2: when none of the `GMT_AVG_COUNT` reads succeeds, `gmSample` stores exactly
`dx = dy = dz = 0` whatever `*gmdata` held before, skips the divisions and returns 0. -/
theorem gmSample_all_failed (gmdata : sampler_cfg) (bus : Nat → BusRead)
    (buffer0 : databuffer) (vBuf0 : magnBuffer)
    (hfail : ∀ i, i < GMT_AVG_COUNT → bus i = none) :
    (gmSample gmdata bus buffer0 vBuf0).gmdata.dx = 0 ∧
    (gmSample gmdata bus buffer0 vBuf0).gmdata.dy = 0 ∧
    (gmSample gmdata bus buffer0 vBuf0).gmdata.dz = 0 ∧
    (gmSample gmdata bus buffer0 vBuf0).divided = false ∧
    (gmSample gmdata bus buffer0 vBuf0).ret = 0 := by
  have h0 : bus 0 = none := hfail 0 (by decide)
  have h1 : bus 1 = none := hfail 1 (by decide)
  have h2 : bus 2 = none := hfail 2 (by decide)
  simp [gmSample, readStep, avgStep, i2c_readMagn, GMT_AVG_COUNT, List.range_succ, h0, h1, h2]

/-- C2 at a concrete cycle: previous sample `(5, -6, 7)`, every read fails. -/
theorem gmSample_all_failed_witness :
    (∀ i, i < GMT_AVG_COUNT → busAllFail i = none) ∧
    (gmSample { lsmWorkData with dx := 5, dy := -6, dz := 7 } busAllFail junkBuffer
        junkVBuf).gmdata.dx = 0 ∧
    (gmSample { lsmWorkData with dx := 5, dy := -6, dz := 7 } busAllFail junkBuffer
        junkVBuf).divided = false :=
  have h := gmSample_all_failed { lsmWorkData with dx := 5, dy := -6, dz := 7 } busAllFail
    junkBuffer junkVBuf (fun _ _ => rfl)
  ⟨fun _ _ => rfl, h.1, h.2.2.2.1⟩

/-- C3: whatever the outcomes of the bus reads, `gmSample` makes exactly
`GMT_AVG_COUNT = 3` read attempts, in order and separated by the two sleeps, and
returns the number of attempts that succeeded, a value in `0..3`. -/
theorem gmSample_attempts_and_count (gmdata : sampler_cfg) (bus : Nat → BusRead)
    (buffer0 : databuffer) (vBuf0 : magnBuffer) :
    (gmSample gmdata bus buffer0 vBuf0).trace
        = [Event.busRead 0 (bus 0).isSome, Event.usleep 250000,
           Event.busRead 1 (bus 1).isSome, Event.usleep 250000,
           Event.busRead 2 (bus 2).isSome] ∧
    ((gmSample gmdata bus buffer0 vBuf0).trace.filter Event.isBusRead).length = GMT_AVG_COUNT ∧
    (gmSample gmdata bus buffer0 vBuf0).ret = ((validReads bus).length : Int) ∧
    0 ≤ (gmSample gmdata bus buffer0 vBuf0).ret ∧
    (gmSample gmdata bus buffer0 vBuf0).ret ≤ 3 := by
  rcases h0 : bus 0 with _ | b0 <;> rcases h1 : bus 1 with _ | b1 <;>
    rcases h2 : bus 2 with _ | b2 <;>
    simp [gmSample, validReads, readStep, avgStep, i2c_readMagn, GMT_AVG_COUNT,
      List.range_succ, List.filter, h0, h1, h2, Function.update, Event.isBusRead]

/-! ### Scheduler -/

/-- C4: for a clock second `s` in `0..59` the main loop sleeps exactly `60 - s`
seconds, a value in `1..60`; at `s = 0` it sleeps 60 seconds. -/
theorem cycleSleep_spec (s : Int) (h0 : 0 ≤ s) (h59 : s ≤ 59) :
    (cycleSleep s : Int) = 60 - s ∧ 1 ≤ cycleSleep s ∧ cycleSleep s ≤ 60 ∧
      cycleSleep 0 = 60 := by
  have e : (60 - s) % 4294967296 = 60 - s := Int.emod_eq_of_lt (by omega) (by omega)
  have hs : (cycleSleep s : Int) = 60 - s := by
    unfold cycleSleep toUInt
    rw [e]
    exact Int.toNat_of_nonneg (by omega)
  refine ⟨hs, by omega, by omega, by decide⟩

/-- C4 at the boundary seconds 59 and 0. -/
theorem cycleSleep_spec_witness :
    (0 : Int) ≤ 59 ∧ (59 : Int) ≤ 59 ∧ (cycleSleep 59 : Int) = 60 - 59 ∧ cycleSleep 0 = 60 :=
  ⟨by decide, by decide, (cycleSleep_spec 59 (by decide) (by decide)).1,
    (cycleSleep_spec 59 (by decide) (by decide)).2.2.2⟩

/-- C5 as stated fails: started at second 30 the program sleeps 30 seconds and begins
its first cycle at second 0; started at second 0 it does not sleep at all. Both first
cycles begin inside the window the claim excludes. -/
theorem startup_outside_window_counterexample :
    startupDelay 30 = 30 ∧ startupDelay 0 = 0 ∧
    ¬ (6 ≤ (30 + (startupDelay 30 : Int)) % 60 ∧ (30 + (startupDelay 30 : Int)) % 60 ≤ 55) ∧
    ¬ (6 ≤ (0 + (startupDelay 0 : Int)) % 60 ∧ (0 + (startupDelay 0 : Int)) % 60 ≤ 55) := by
  decide

/-- C5 amended: for a start-up second `s` in `0..59` the program sleeps `60 - s`
seconds when `5 < s < 55` and not at all otherwise, so the first cycle begins near a
minute mark: at a second in `55..59` or `0..5`. -/
theorem startup_near_minute_mark (s : Int) (h0 : 0 ≤ s) (h59 : s ≤ 59) :
    (startupDelay s : Int) = (if 5 < s ∧ s < 55 then 60 - s else 0) ∧
    ((s + (startupDelay s : Int)) % 60 ≤ 5 ∨ 55 ≤ (s + (startupDelay s : Int)) % 60) := by
  have hd : (startupDelay s : Int) = (if 5 < s ∧ s < 55 then 60 - s else 0) := by
    unfold startupDelay startupSleep toUInt
    by_cases h : s > 5 ∧ s < 55
    · have e : (60 - s) % 4294967296 = 60 - s := Int.emod_eq_of_lt (by omega) (by omega)
      have h' : 5 < s ∧ s < 55 := h
      simp only [h, h', and_self, if_true, Option.getD_some, e]
      exact Int.toNat_of_nonneg (by omega)
    · have h' : ¬ (5 < s ∧ s < 55) := h
      simp [h, h']
  rw [hd]
  split_ifs with h <;> omega

/-- C5 amended, at seconds 30 (sleeps 30) and 57 (no sleep). -/
theorem startup_near_minute_mark_witness :
    ((0 : Int) ≤ 30 ∧ (30 : Int) ≤ 59 ∧
      ((30 + (startupDelay 30 : Int)) % 60 ≤ 5 ∨ 55 ≤ (30 + (startupDelay 30 : Int)) % 60)) ∧
    ((0 : Int) ≤ 57 ∧ (57 : Int) ≤ 59 ∧
      ((57 + (startupDelay 57 : Int)) % 60 ≤ 5 ∨ 55 ≤ (57 + (startupDelay 57 : Int)) % 60)) :=
  ⟨⟨by decide, by decide, (startup_near_minute_mark 30 (by decide) (by decide)).2⟩,
   ⟨by decide, by decide, (startup_near_minute_mark 57 (by decide) (by decide)).2⟩⟩

/-! ### Persistence writer -/

theorem fmtInt_day_length (d : Int) (h1 : 1 ≤ d) (h31 : d ≤ 31) :
    (fmtInt true 2 d).data.length = 2 := by
  interval_cases d <;> decide

theorem fmtInt_day_value (d : Int) (h1 : 1 ≤ d) (h31 : d ≤ 31) :
    (digitsValue (fmtInt true 2 d) : Int) = d := by
  interval_cases d <;> decide

theorem dataFilePath_data (t : tm) :
    (dataFilePath t).data
      = (GMT_DATA_PATH ++ "/" ++ fmtInt false 4 (t.tm_year + 2000) ++ "_" ++
          fmtInt true 2 (t.tm_mon + 1) ++ "_").data ++ (fmtInt true 2 t.tm_mday).data
          ++ ".dat".data := by
  simp [dataFilePath, String.data_append]

/-- Two timestamps with different days of month (both in `1..31`) get different paths. -/
theorem dataFilePath_ne_of_mday_ne (a b : tm) (ha1 : 1 ≤ a.tm_mday) (ha31 : a.tm_mday ≤ 31)
    (hb1 : 1 ≤ b.tm_mday) (hb31 : b.tm_mday ≤ 31) (hne : a.tm_mday ≠ b.tm_mday) :
    dataFilePath a ≠ dataFilePath b := by
  intro h
  have hd := congrArg String.data h
  rw [dataFilePath_data, dataFilePath_data] at hd
  have h1 := (List.append_inj' hd rfl).1
  have h2 := (List.append_inj' h1 (by
    rw [fmtInt_day_length _ ha1 ha31, fmtInt_day_length _ hb1 hb31])).2
  have h3 : fmtInt true 2 a.tm_mday = fmtInt true 2 b.tm_mday := String.ext h2
  have h4 := congrArg (fun s => (digitsValue s : Int)) h3
  simp only [fmtInt_day_value _ ha1 ha31, fmtInt_day_value _ hb1 hb31] at h4
  exact hne h4

theorem daysInMonth_bounds (y mon : Int) : 28 ≤ daysInMonth y mon ∧ daysInMonth y mon ≤ 31 := by
  unfold daysInMonth
  split_ifs <;> omega

theorem digitChar_ne_hash (k : Nat) (hk : k < 10) : Nat.digitChar k ≠ '#' := by
  interval_cases k <;> decide

theorem toDigitsCore_no_hash :
    ∀ (fuel n : Nat) (ds : List Char), '#' ∉ ds → '#' ∉ Nat.toDigitsCore 10 fuel n ds := by
  intro fuel
  induction fuel with
  | zero => intro n ds h; simpa [Nat.toDigitsCore] using h
  | succ fuel ih =>
    intro n ds h
    have hd : '#' ∉ Nat.digitChar (n % 10) :: ds := by
      intro hm
      rcases List.mem_cons.1 hm with e | e
      · exact digitChar_ne_hash _ (Nat.mod_lt _ (by decide)) e.symm
      · exact h e
    simp only [Nat.toDigitsCore]
    split_ifs
    · exact hd
    · exact ih _ _ hd

theorem repr_no_hash (m : Nat) : '#' ∉ (Nat.repr m).data := by
  unfold Nat.repr Nat.toDigits
  exact toDigitsCore_no_hash _ _ _ (by simp)

theorem fmtInt_no_hash (w : Nat) (n : Int) : '#' ∉ (fmtInt true w n).data := by
  unfold fmtInt padLeft
  simp only [if_true, String.data_append]
  intro h
  rcases List.mem_append.1 h with h1 | h1
  · split_ifs at h1
    · simp at h1
    · simp at h1
  · rcases List.mem_append.1 h1 with h2 | h2
    · have := List.eq_of_mem_replicate h2
      exact absurd this (by decide)
    · exact repr_no_hash _ h2

theorem dataLine_not_header (g : sampler_cfg) (t : tm) : isHeaderLine (dataLine g t) = false := by
  have hA := fmtInt_no_hash 2 t.tm_hour
  unfold isHeaderLine dataLine
  simp only [String.data_append, List.append_assoc]
  rcases hd : (fmtInt true 2 t.tm_hour).data with _ | ⟨c, r⟩
  · simp
  · rw [hd] at hA
    have : c ≠ '#' := fun e => hA (by simp [e])
    simpa using this

theorem headerBlock_flags (g : sampler_cfg) (t : tm) :
    (headerBlock g t ++ [dataLine g t]).map isHeaderLine = [true, true, true, true, false] := by
  have h1 : isHeaderLine (startTimeLine t) = true := by
    unfold isHeaderLine startTimeLine
    simp only [String.data_append, List.append_assoc]
    rfl
  have h2 : isHeaderLine ("# fullscale value = " ++ fmtFixed false 0 5 g.fullScale ++ " Ga\n")
      = true := by
    unfold isHeaderLine
    simp only [String.data_append, List.append_assoc]
    rfl
  have h3 : isHeaderLine "# -- geomagnetism data, per minute --\n" = true := by decide
  have h4 : isHeaderLine "# format :\n# HH:MM, X_data, Y_data, Z_data\n" = true := by decide
  simp only [headerBlock, List.cons_append, List.nil_append, List.map_cons, List.map_nil, h1, h2,
    h3, h4, dataLine_not_header]

/-- C6: from the initial statics, take two consecutive successful `writeData` calls.
If both timestamps have the same date, both open the same path; the first writes the
four strings of the header block (title, start time, column legend, full-scale value,
each beginning with `#`) followed by its data line, and the second writes its data
line only, so the file gets one header block, before the first of two data lines. If
the second timestamp falls on the following calendar day, the second call opens a
different path and writes its own header block once, before its data line. -/
theorem writeData_two_calls (g1 g2 : sampler_cfg) (t1 t2 : tm) (sf1 sf2 : Bool)
    (hvalid : validDate t1) :
    (writeData g1 WriterState.initial t1 sf1 true).written
      = [ "# -- geomagnetism data, per minute --\n",
          "#start time : " ++ fmtInt true 2 (t1.tm_mon + 1) ++ "." ++ fmtInt true 2 t1.tm_mday ++
            "." ++ fmtInt false 4 (t1.tm_year + 1900) ++ ", " ++ fmtInt true 2 t1.tm_hour ++
            ":" ++ fmtInt true 2 t1.tm_min ++ "\n",
          "# format :\n# HH:MM, X_data, Y_data, Z_data\n",
          "# fullscale value = " ++ fmtFixed false 0 5 g1.fullScale ++ " Ga\n",
          fmtInt true 2 t1.tm_hour ++ ":" ++ fmtInt true 2 t1.tm_min ++ ", " ++
            fmtFixed false 0 5 g1.dx ++ ", " ++ fmtFixed false 0 5 g1.dy ++ ", " ++
            fmtFixed true 5 6 g1.dz ++ "\n" ] ∧
    (writeData g1 WriterState.initial t1 sf1 true).written.map isHeaderLine
      = [true, true, true, true, false] ∧
    (dayKey t1 = dayKey t2 →
      (writeData g1 WriterState.initial t1 sf1 true).openPath
        = (writeData g2 (writeData g1 WriterState.initial t1 sf1 true).state t2 sf2 true).openPath ∧
      (writeData g2 (writeData g1 WriterState.initial t1 sf1 true).state t2 sf2 true).written
        = [ fmtInt true 2 t2.tm_hour ++ ":" ++ fmtInt true 2 t2.tm_min ++ ", " ++
              fmtFixed false 0 5 g2.dx ++ ", " ++ fmtFixed false 0 5 g2.dy ++ ", " ++
              fmtFixed true 5 6 g2.dz ++ "\n" ] ∧
      (writeData g2 (writeData g1 WriterState.initial t1 sf1 true).state t2 sf2
        true).written.map isHeaderLine = [false]) ∧
    (isNextDay t1 t2 →
      (writeData g2 (writeData g1 WriterState.initial t1 sf1 true).state t2 sf2 true).openPath
        ≠ (writeData g1 WriterState.initial t1 sf1 true).openPath ∧
      (writeData g2 (writeData g1 WriterState.initial t1 sf1 true).state t2 sf2 true).written
        = [ "# -- geomagnetism data, per minute --\n",
            "#start time : " ++ fmtInt true 2 (t2.tm_mon + 1) ++ "." ++
              fmtInt true 2 t2.tm_mday ++ "." ++ fmtInt false 4 (t2.tm_year + 1900) ++ ", " ++
              fmtInt true 2 t2.tm_hour ++ ":" ++ fmtInt true 2 t2.tm_min ++ "\n",
            "# format :\n# HH:MM, X_data, Y_data, Z_data\n",
            "# fullscale value = " ++ fmtFixed false 0 5 g2.fullScale ++ " Ga\n",
            fmtInt true 2 t2.tm_hour ++ ":" ++ fmtInt true 2 t2.tm_min ++ ", " ++
              fmtFixed false 0 5 g2.dx ++ ", " ++ fmtFixed false 0 5 g2.dy ++ ", " ++
              fmtFixed true 5 6 g2.dz ++ "\n" ] ∧
      (writeData g2 (writeData g1 WriterState.initial t1 sf1 true).state t2 sf2
        true).written.map isHeaderLine = [true, true, true, true, false]) := by
  obtain ⟨hm0, hm11, hd1, hdmax⟩ := hvalid
  have hb := daysInMonth_bounds (t1.tm_year + 1900) t1.tm_mon
  have e1 : (writeData g1 WriterState.initial t1 sf1 true).written
      = headerBlock g1 t1 ++ [dataLine g1 t1] := by
    simp [writeData, WriterState.initial]
  refine ⟨?_, ?_, ?_, ?_⟩
  · rw [e1]
    rfl
  · rw [e1]
    exact headerBlock_flags g1 t1
  · intro hk
    simp only [dayKey, Prod.mk.injEq] at hk
    obtain ⟨hy, hm, hd⟩ := hk
    have hy' : t1.tm_year = t2.tm_year := by omega
    have hm' : t1.tm_mon = t2.tm_mon := by omega
    have e2 : (writeData g2 (writeData g1 WriterState.initial t1 sf1 true).state t2 sf2
        true).written = [dataLine g2 t2] := by
      simp [writeData, WriterState.initial, hd]
    refine ⟨?_, ?_, ?_⟩
    · simp [writeData, dataFilePath, hy', hm', hd]
    · rw [e2]
      rfl
    · rw [e2]
      simp only [List.map_cons, List.map_nil, dataLine_not_header]
  · intro hn
    have hd2 : 1 ≤ t2.tm_mday ∧ t2.tm_mday ≤ 31 ∧ t2.tm_mday ≠ t1.tm_mday := by
      unfold isNextDay at hn
      split_ifs at hn <;> omega
    have e2 : (writeData g2 (writeData g1 WriterState.initial t1 sf1 true).state t2 sf2
        true).written = headerBlock g2 t2 ++ [dataLine g2 t2] := by
      simp [writeData, WriterState.initial, hd2.2.2]
    refine ⟨?_, ?_, ?_⟩
    · have := dataFilePath_ne_of_mday_ne t2 t1 hd2.1 hd2.2.1 hd1 (by omega) hd2.2.2
      simpa [writeData] using this
    · rw [e2]
      rfl
    · rw [e2]
      exact headerBlock_flags g2 t2

/-- C6 on 15 and 16 January 2025: the call at 12:00 on the 15th writes the four header
strings and its data line; the call at 12:01 on the 15th opens the same file and writes
its data line only; a call at 12:00 on the 16th instead opens another file and writes
the header for the 16th before its data line. -/
theorem writeData_two_calls_witness :
    validDate jan15 ∧ dayKey jan15 = dayKey jan15Later ∧ isNextDay jan15 jan16 ∧
    (writeData lsmWorkData WriterState.initial jan15 true true).written
      = [ "# -- geomagnetism data, per minute --\n",
          "#start time : 01.15.2025, 12:00\n",
          "# format :\n# HH:MM, X_data, Y_data, Z_data\n",
          "# fullscale value = 1.30000 Ga\n",
          "12:00, 0.00000, 0.00000, 0.000000\n" ] ∧
    (writeData halfSample (writeData lsmWorkData WriterState.initial jan15 true true).state
        jan15Later false true).openPath = "./data/2125_01_15.dat" ∧
    (writeData lsmWorkData WriterState.initial jan15 true true).openPath
      = "./data/2125_01_15.dat" ∧
    (writeData halfSample (writeData lsmWorkData WriterState.initial jan15 true true).state
        jan15Later false true).written = ["12:01, 0.50000, 0.50000, 0.500000\n"] ∧
    (writeData halfSample (writeData lsmWorkData WriterState.initial jan15 true true).state
        jan16 false true).openPath = "./data/2125_01_16.dat" ∧
    (writeData halfSample (writeData lsmWorkData WriterState.initial jan15 true true).state
        jan16 false true).written
      = [ "# -- geomagnetism data, per minute --\n",
          "#start time : 01.16.2025, 12:00\n",
          "# format :\n# HH:MM, X_data, Y_data, Z_data\n",
          "# fullscale value = 1.30000 Ga\n",
          "12:00, 0.50000, 0.50000, 0.500000\n" ] :=
  ⟨by decide, by decide, by decide,
    (writeData_two_calls lsmWorkData halfSample jan15 jan15Later true false (by decide)).1.trans
      (by decide!),
    (((writeData_two_calls lsmWorkData halfSample jan15 jan15Later true false
      (by decide)).2.2.1 (by decide)).1.symm).trans (by decide!),
    by decide!,
    ((writeData_two_calls lsmWorkData halfSample jan15 jan15Later true false
      (by decide)).2.2.1 (by decide)).2.1.trans (by decide!),
    by decide!,
    ((writeData_two_calls lsmWorkData halfSample jan15 jan16 true false
      (by decide)).2.2.2 (by decide)).2.1.trans (by decide!)⟩

/-- C7 fails on the code: after a successful call at noon of 15 January 2025, the next
successful call at noon of 15 February 2025 has another day key and opens another
file, yet writes its data line without a header, since only the day of month is
compared. -/
theorem writeData_header_missing_same_mday :
    dayKey feb15 ≠ dayKey jan15 ∧
    (writeData lsmWorkData (writeData lsmWorkData WriterState.initial jan15 false true).state
        feb15 false true).ret = 0 ∧
    (writeData lsmWorkData (writeData lsmWorkData WriterState.initial jan15 false true).state
        feb15 false true).openPath = "./data/2125_02_15.dat" ∧
    (writeData lsmWorkData WriterState.initial jan15 false true).openPath
        = "./data/2125_01_15.dat" ∧
    (writeData lsmWorkData (writeData lsmWorkData WriterState.initial jan15 false true).state
        feb15 false true).written = [dataLine lsmWorkData feb15] := by
  refine ⟨by decide, ?_, ?_, ?_, ?_⟩
  · simp [writeData]
  · simp only [writeData]; decide
  · simp only [writeData]; decide
  · simp [writeData, WriterState.initial, feb15, jan15]

/-- C8 fails on the code: on 20 April 2025 (`tm_year = 125`) the file opened is
`./data/2125_04_20.dat`, named with year `tm_year + 2000`, while the header written
into it carries the calendar year 2025. -/
theorem writeData_file_year_off :
    (writeData lsmWorkData WriterState.initial apr20 false true).openPath
        = "./data/2125_04_20.dat" ∧
    (writeData lsmWorkData WriterState.initial apr20 false true).written.get? 1
        = some "#start time : 04.20.2025, 13:01\n" := by
  constructor
  · simp only [writeData]; decide
  · simp only [writeData, WriterState.initial, headerBlock]; decide

/-- C9 fails on the code: for the sample `(0.5, 0.5, 0.5)` at 13:01 the data line is
`13:01, 0.50000, 0.50000, 0.500000`: the Z value is printed by `%05lf`, with six digits
after the decimal point. -/
theorem writeData_z_six_decimals :
    (writeData halfSample WriterState.initial apr20 false true).written.getLast?
        = some "13:01, 0.50000, 0.50000, 0.500000\n" := by
  have h : dataLine halfSample apr20 = "13:01, 0.50000, 0.50000, 0.500000\n" := by decide!
  simp [writeData, h]

/-- C10 fails on the code: at 23:20 the main loop computes the index 1400, which is
`MINS_PER_DAY` itself, so `dData[i]` lies outside the buffer. -/
theorem dData_index_out_of_bounds :
    bufferIndex apr20Night = 1400 ∧ ¬ (bufferIndex apr20Night < (MINS_PER_DAY : Int)) ∧
    dDataRow apr20Night = none := by
  decide

/-! ### Bus decoding and device setup -/

/-- C11: for every six bytes delivered by a successful burst read, `i2c_readMagn`
returns 0 and sets `mgnX`, `mgnY`, `mgnZ` to the big-endian two's-complement 16-bit
readings of the byte pairs `(b0,b1)`, `(b2,b3)`, `(b4,b5)`; and every triple of values
in `-32768..32767` is the result of some burst. -/
theorem i2c_readMagn_decodes (mBuf : magnBuffer) (b : Inbuf) (hb : b.isBytes) :
    (i2c_readMagn mBuf (some b)).1 = 0 ∧
    (i2c_readMagn mBuf (some b)).2.mgnX = be16 b.b0 b.b1 ∧
    (i2c_readMagn mBuf (some b)).2.mgnY = be16 b.b2 b.b3 ∧
    (i2c_readMagn mBuf (some b)).2.mgnZ = be16 b.b4 b.b5 ∧
    (∀ vx vy vz : Int, -32768 ≤ vx → vx ≤ 32767 → -32768 ≤ vy → vy ≤ 32767 →
      -32768 ≤ vz → vz ≤ 32767 →
      ∃ c : Inbuf, c.isBytes ∧ (i2c_readMagn mBuf (some c)).1 = 0 ∧
        (i2c_readMagn mBuf (some c)).2.mgnX = vx ∧
        (i2c_readMagn mBuf (some c)).2.mgnY = vy ∧
        (i2c_readMagn mBuf (some c)).2.mgnZ = vz) := by
  obtain ⟨h0, h1, h2, h3, h4, h5⟩ := hb
  refine ⟨rfl, ?_, ?_, ?_, ?_⟩
  · simp only [i2c_readMagn, toShort, toUchar, be16, Int.ofNat_eq_coe]
    split_ifs <;> omega
  · simp only [i2c_readMagn, toShort, toUchar, be16, Int.ofNat_eq_coe]
    split_ifs <;> omega
  · simp only [i2c_readMagn, toShort, toUchar, be16, Int.ofNat_eq_coe]
    split_ifs <;> omega
  · intro vx vy vz hx1 hx2 hy1 hy2 hz1 hz2
    refine ⟨{ b0 := (bytesOf vx).1, b1 := (bytesOf vx).2, b2 := (bytesOf vy).1,
              b3 := (bytesOf vy).2, b4 := (bytesOf vz).1, b5 := (bytesOf vz).2 }, ?_, rfl, ?_, ?_, ?_⟩
    · simp only [Inbuf.isBytes, bytesOf]
      omega
    · simp only [i2c_readMagn, toShort, toUchar, bytesOf, Int.ofNat_eq_coe]
      omega
    · simp only [i2c_readMagn, toShort, toUchar, bytesOf, Int.ofNat_eq_coe]
      omega
    · simp only [i2c_readMagn, toShort, toUchar, bytesOf, Int.ofNat_eq_coe]
      omega

/-- C11 on the burst `FF 38 00 64 80 00`: X = -200, Y = 100, Z = -32768. -/
theorem i2c_readMagn_decodes_witness :
    Inbuf.isBytes { b0 := 255, b1 := 56, b2 := 0, b3 := 100, b4 := 128, b5 := 0 } ∧
    (i2c_readMagn junkVBuf
        (some { b0 := 255, b1 := 56, b2 := 0, b3 := 100, b4 := 128, b5 := 0 })).2.mgnX = -200 ∧
    (i2c_readMagn junkVBuf
        (some { b0 := 255, b1 := 56, b2 := 0, b3 := 100, b4 := 128, b5 := 0 })).2.mgnZ
      = -32768 := by
  have h := i2c_readMagn_decodes junkVBuf
    { b0 := 255, b1 := 56, b2 := 0, b3 := 100, b4 := 128, b5 := 0 } (by decide)
  refine ⟨by decide, ?_, ?_⟩
  · rw [h.2.1]; decide
  · rw [h.2.2.2.1]; decide

/-- C16: whatever the outcomes of the register writes, `setupSensor` attempts them in
the order CRA, CRB, MR and stops at the first failure; it returns 0 exactly when all
three succeed and otherwise the position (1, 2 or 3) of the first failing write, which
is also the number of writes attempted. -/
theorem setupSensor_order_and_result (dcfg : deviceConfig) (io : Nat → Bool) :
    (setupSensor dcfg io).ret = firstFailing io ∧
    ((setupSensor dcfg io).ret = 0 ↔ (io 0 = true ∧ io 1 = true ∧ io 2 = true)) ∧
    (0 ≤ (setupSensor dcfg io).ret ∧ (setupSensor dcfg io).ret ≤ 3) ∧
    (setupSensor dcfg io).writes
      = [writeCRA dcfg, writeCRB dcfg, writeMR dcfg].take
          (if (setupSensor dcfg io).ret = 0 then 3 else (setupSensor dcfg io).ret.toNat) := by
  rcases h0 : io 0 <;> rcases h1 : io 1 <;> rcases h2 : io 2 <;>
    simp [setupSensor, i2c_write, firstFailing, writeCRA, writeCRB, writeMR, h0, h1, h2,
      List.indexOf, List.findIdx, List.findIdx.go]

/-- C12 as stated fails: a failure of the CRA write, of the CRB write and of the MR
write all make `main` exit with status 20, although `setupSensor` returned 1, 2 and 3. -/
theorem main_exit_status_counterexample :
    (mainStartup defaultCfg 3 (failAt 0)).exit = some 20 ∧
    (mainStartup defaultCfg 3 (failAt 1)).exit = some 20 ∧
    (mainStartup defaultCfg 3 (failAt 2)).exit = some 20 ∧
    (setupSensor (setSensorConfig defaultCfg).2 (failAt 0)).ret = 1 ∧
    (setupSensor (setSensorConfig defaultCfg).2 (failAt 1)).ret = 2 ∧
    (setupSensor (setSensorConfig defaultCfg).2 (failAt 2)).ret = 3 := by
  simp [mainStartup, setupSensor, i2c_write, failAt]

/-- C12 amended: when the bus device was opened and at least one of the three setup
writes fails, `main` exits with status 20 whichever write failed (10 is the status of
a failed open); the failing step, 1 to 3, is the number in the message it prints. -/
theorem main_exit_20_on_setup_failure (escfg : elfSenseConfig) (fd : Int) (io : Nat → Bool)
    (hfd : 0 ≤ fd) (hfail : ¬ (io 0 = true ∧ io 1 = true ∧ io 2 = true)) :
    (mainStartup escfg fd io).exit = some 20 ∧
    (mainStartup escfg fd io).stdout
      = ["setupSensor() ret = " ++ fmtInt false 0 (firstFailing io) ++ ", error !\n"] ∧
    1 ≤ firstFailing io ∧ firstFailing io ≤ 3 ∧
    (mainStartup escfg (-1) io).exit = some 10 := by
  have hfd' : ¬ fd < 0 := by omega
  rcases h0 : io 0 <;> rcases h1 : io 1 <;> rcases h2 : io 2 <;>
    simp [mainStartup, setupSensor, i2c_write, firstFailing, h0, h1, h2, hfd', List.indexOf,
      List.findIdx, List.findIdx.go] at hfail ⊢

/-- C12 amended, with the CRB write failing: status 20 and the message names step 2. -/
theorem main_exit_20_on_setup_failure_witness :
    (0 : Int) ≤ 3 ∧ ¬ (failAt 1 0 = true ∧ failAt 1 1 = true ∧ failAt 1 2 = true) ∧
    (mainStartup defaultCfg 3 (failAt 1)).exit = some 20 ∧
    (mainStartup defaultCfg 3 (failAt 1)).stdout
      = ["setupSensor() ret = " ++ fmtInt false 0 (firstFailing (failAt 1)) ++ ", error !\n"] :=
  ⟨by decide, by decide,
    (main_exit_20_on_setup_failure defaultCfg 3 (failAt 1) (by decide) (by decide)).1,
    (main_exit_20_on_setup_failure defaultCfg 3 (failAt 1) (by decide) (by decide)).2.1⟩

/-- C17: when opening the day file fails, `writeData` returns 1, writes nothing and
leaves `dsCount` and `mday` as they were, so the next successful call behaves as if the
failed call had not happened; on a day of month different from `mday` it writes the
four strings of the header block, each beginning with `#`, before its data line. -/
theorem writeData_failed_open_atomic (g g2 : sampler_cfg) (st : WriterState) (t t2 : tm)
    (sf sf2 : Bool) (hday : t2.tm_mday ≠ st.mday) :
    (writeData g st t sf false).ret = 1 ∧
    (writeData g st t sf false).written = [] ∧
    (writeData g st t sf false).state = st ∧
    writeData g2 (writeData g st t sf false).state t2 sf2 true = writeData g2 st t2 sf2 true ∧
    (writeData g2 (writeData g st t sf false).state t2 sf2 true).written
      = [ "# -- geomagnetism data, per minute --\n",
          "#start time : " ++ fmtInt true 2 (t2.tm_mon + 1) ++ "." ++ fmtInt true 2 t2.tm_mday ++
            "." ++ fmtInt false 4 (t2.tm_year + 1900) ++ ", " ++ fmtInt true 2 t2.tm_hour ++
            ":" ++ fmtInt true 2 t2.tm_min ++ "\n",
          "# format :\n# HH:MM, X_data, Y_data, Z_data\n",
          "# fullscale value = " ++ fmtFixed false 0 5 g2.fullScale ++ " Ga\n",
          fmtInt true 2 t2.tm_hour ++ ":" ++ fmtInt true 2 t2.tm_min ++ ", " ++
            fmtFixed false 0 5 g2.dx ++ ", " ++ fmtFixed false 0 5 g2.dy ++ ", " ++
            fmtFixed true 5 6 g2.dz ++ "\n" ] ∧
    (writeData g2 (writeData g st t sf false).state t2 sf2 true).written.map isHeaderLine
      = [true, true, true, true, false] := by
  have e : (writeData g2 (writeData g st t sf false).state t2 sf2 true).written
      = headerBlock g2 t2 ++ [dataLine g2 t2] := by
    simp [writeData, hday]
  refine ⟨by simp [writeData], by simp [writeData], by simp [writeData], by simp [writeData],
    ?_, ?_⟩
  · rw [e]
    rfl
  · rw [e]
    exact headerBlock_flags g2 t2

/-- C17 on 15 and 16 January 2025: after a successful call on the 15th, a failed call
on the 16th returns 1, writes nothing and keeps `dsCount = 1`, `mday = 15`; the next
call on the 16th still writes the header for the 16th before its data line. -/
theorem writeData_failed_open_atomic_witness :
    jan16.tm_mday ≠ (writeData lsmWorkData WriterState.initial jan15 false true).state.mday ∧
    (writeData halfSample (writeData lsmWorkData WriterState.initial jan15 false true).state
        jan16 true false).ret = 1 ∧
    (writeData halfSample (writeData lsmWorkData WriterState.initial jan15 false true).state
        jan16 true false).written = [] ∧
    (writeData halfSample (writeData lsmWorkData WriterState.initial jan15 false true).state
        jan16 true false).state = { dsCount := 1, mday := 15 } ∧
    (writeData halfSample
        (writeData halfSample (writeData lsmWorkData WriterState.initial jan15 false true).state
          jan16 true false).state jan16 false true).written
      = [ "# -- geomagnetism data, per minute --\n",
          "#start time : 01.16.2025, 12:00\n",
          "# format :\n# HH:MM, X_data, Y_data, Z_data\n",
          "# fullscale value = 1.30000 Ga\n",
          "12:00, 0.50000, 0.50000, 0.500000\n" ] :=
  ⟨by decide,
    (writeData_failed_open_atomic halfSample halfSample
      (writeData lsmWorkData WriterState.initial jan15 false true).state jan16 jan16 true false
      (by decide)).1,
    (writeData_failed_open_atomic halfSample halfSample
      (writeData lsmWorkData WriterState.initial jan15 false true).state jan16 jan16 true false
      (by decide)).2.1,
    (writeData_failed_open_atomic halfSample halfSample
      (writeData lsmWorkData WriterState.initial jan15 false true).state jan16 jan16 true false
      (by decide)).2.2.1.trans (by decide!),
    (writeData_failed_open_atomic halfSample halfSample
      (writeData lsmWorkData WriterState.initial jan15 false true).state jan16 jan16 true false
      (by decide)).2.2.2.2.1.trans (by decide!)⟩

/-! ### Configuration scanner -/

theorem fgetsAux_line (l rest : List Char) (hl : '\n' ∉ l) :
    ∀ k, l.length < k → fgetsAux k (l ++ '\n' :: rest) = (l ++ ['\n'], rest) := by
  induction l with
  | nil =>
    intro k hk
    obtain ⟨k, rfl⟩ : ∃ j, k = j + 1 := ⟨k - 1, by simp at hk; omega⟩
    simp [fgetsAux]
  | cons c l ih =>
    intro k hk
    obtain ⟨k, rfl⟩ : ∃ j, k = j + 1 := ⟨k - 1, by simp at hk; omega⟩
    have hc : c ≠ '\n' := fun h => hl (by simp [h])
    have hl2 : '\n' ∉ l := fun h => hl (by simp [h])
    have := ih hl2 k (by simp at hk; omega)
    simp [fgetsAux, hc, this]

theorem fgetsAux_last (l : List Char) (hl : '\n' ∉ l) :
    ∀ k, l.length ≤ k → fgetsAux k l = (l, []) := by
  induction l with
  | nil =>
    intro k _
    cases k <;> simp [fgetsAux]
  | cons c l ih =>
    intro k hk
    obtain ⟨k, rfl⟩ : ∃ j, k = j + 1 := ⟨k - 1, by simp at hk; omega⟩
    have hc : c ≠ '\n' := fun h => hl (by simp [h])
    have hl2 : '\n' ∉ l := fun h => hl (by simp [h])
    have := ih hl2 k (by simp at hk; omega)
    simp [fgetsAux, hc, this]

theorem toupper_cases (c : Char) :
    toupper c = c ∨ (65 ≤ (toupper c).toNat ∧ (toupper c).toNat ≤ 90) := by
  unfold toupper Char.toUpper
  by_cases h : c.toNat ≥ 97 ∧ c.toNat ≤ 122
  · right
    obtain ⟨k, hk⟩ : ∃ k, c.toNat = k := ⟨_, rfl⟩
    have hc : c = Char.ofNat k := by rw [← hk, Char.ofNat_toNat]
    rw [hk] at h
    obtain ⟨h1, h2⟩ := h
    subst hc
    interval_cases k <;> decide
  · left
    simp only [h, if_false]

theorem toupper_eq_hash (c : Char) : toupper c = '#' ↔ c = '#' := by
  constructor
  · intro h
    rcases toupper_cases c with h1 | h1
    · rw [← h1, h]
    · rw [h] at h1
      exact absurd h1 (by decide)
  · rintro rfl
    decide

theorem toupper_ne_newline (c : Char) (hc : c ≠ '\n') : toupper c ≠ '\n' := by
  intro h
  rcases toupper_cases c with h1 | h1
  · exact hc (by rw [← h1, h])
  · rw [h] at h1
    exact absurd h1 (by decide)

theorem takeWhile_append_stop (p : Char → Bool) (d : Char) (r : List Char) (hd : p d = false) :
    ∀ l : List Char, (∀ c ∈ l, p c = true) → (l ++ d :: r).takeWhile p = l := by
  intro l
  induction l with
  | nil => intro _; simp [List.takeWhile, hd]
  | cons c l ih =>
    intro h
    have hc : p c = true := h c (by simp)
    have := ih (fun x hx => h x (by simp [hx]))
    simp [List.takeWhile, hc, this]

theorem strstr_suffix (needle : List Char) :
    ∀ (hay p : List Char), strstr hay needle = some p → p <:+ hay := by
  intro hay
  induction hay with
  | nil =>
    intro p h
    unfold strstr at h
    split_ifs at h
    cases h
    exact List.suffix_refl _
  | cons c hay ih =>
    intro p h
    unfold strstr at h
    split_ifs at h
    · cases h
      exact List.suffix_refl _
    · exact (ih p h).trans (List.suffix_cons c hay)

theorem strchr_suffix (s : List Char) (c : Char) (r : List Char) (h : strchr s c = some r) :
    r <:+ s := by
  unfold strchr at h
  split at h
  · cases h
  · cases h
    exact List.dropWhile_suffix _

theorem strupr_short (s : List Char) (h : s.length ≤ CFG_STR_MAX) : strupr s = s.map toupper := by
  unfold strupr
  rw [List.take_of_length_le h, List.drop_eq_nil_of_le h, List.append_nil]

/-- On a buffer without newline, the value test of the loop body is the test for a
non-empty value. -/
theorem value_test_no_newline (key lbuf : List Char) (hn : '\n' ∉ lbuf) :
    (match strstr lbuf key with
      | none => none
      | some p =>
        match strchr (p.drop key.length) '=' with
        | none => none
        | some pr =>
          let v := (pr.drop 1).dropWhile (fun c => c = ' ' ∨ c = '\t')
          if v ≠ [] ∧ v.head? ≠ some '\n' then some v else none)
    = (match strstr lbuf key with
      | none => none
      | some p =>
        match strchr (p.drop key.length) '=' with
        | none => none
        | some pr =>
          let v := (pr.drop 1).dropWhile (fun c => c = ' ' ∨ c = '\t')
          if v = [] then none else some v) := by
  rcases h1 : strstr lbuf key with _ | p
  · rfl
  · dsimp only
    rcases h2 : strchr (p.drop key.length) '=' with _ | pr
    · rfl
    · dsimp only
      have hs : (pr.drop 1).dropWhile (fun c => decide (c = ' ' ∨ c = '\t')) <:+ lbuf :=
        (((List.dropWhile_suffix _).trans (List.drop_suffix 1 pr)).trans
          (strchr_suffix _ _ _ h2)).trans
          ((List.drop_suffix _ p).trans (strstr_suffix key lbuf p h1))
      have hv : ((pr.drop 1).dropWhile (fun c => decide (c = ' ' ∨ c = '\t'))).head?
          ≠ some '\n' := by
        intro hh
        exact hn (hs.subset (List.mem_of_mem_head? hh))
      by_cases he : (pr.drop 1).dropWhile (fun c => decide (c = ' ' ∨ c = '\t')) = []
      · rw [if_neg (fun h => h.1 he), if_pos he]
      · rw [if_pos ⟨he, hv⟩, if_neg he]

theorem lineValue_line (key l : List Char) (hl : IsCfgLine l) :
    lineValue key (l ++ ['\n']) = upperLineValue key l ∧ lineValue key l = upperLineValue key l := by
  obtain ⟨hn, hz, hlen⟩ := hl
  have hnu : '\n' ∉ l.map toupper := by
    intro h
    obtain ⟨c, hc, hcu⟩ := List.mem_map.1 h
    exact toupper_ne_newline c (fun e => hn (e ▸ hc)) hcu
  have hhead : ∀ t : List Char, ((l.map toupper) ++ t).head? = some '#' ↔
      (l.head? = some '#' ∨ (l = [] ∧ t.head? = some '#')) := by
    intro t
    cases l with
    | nil => simp
    | cons c l => simp [toupper_eq_hash]
  have hc1 : cstr (l ++ ['\n']) = l ++ ['\n'] := by
    unfold cstr
    rw [List.takeWhile_eq_self_iff]
    intro x hx
    rcases List.mem_append.1 hx with h | h
    · simpa using fun e : x = NUL => hz (e ▸ h)
    · have : x = '\n' := by simpa using h
      subst this
      decide
  have hc2 : cstr l = l := by
    unfold cstr
    rw [List.takeWhile_eq_self_iff]
    intro x hx
    simpa using fun e : x = NUL => hz (e ▸ hx)
  have hu1 : strupr (l ++ ['\n']) = l.map toupper ++ ['\n'] := by
    rw [strupr_short _ (by simp [CFG_STR_MAX]; omega)]
    simp
    decide
  have hu2 : strupr l = l.map toupper := strupr_short _ (by simp [CFG_STR_MAX]; omega)
  have ht1 : (l.map toupper ++ ['\n']).takeWhile (fun c => decide (c ≠ '\n')) = l.map toupper :=
    takeWhile_append_stop _ '\n' [] (by decide) _
      (fun c hc => by simpa using fun e : c = '\n' => hnu (e ▸ hc))
  have ht2 : (l.map toupper).takeWhile (fun c => decide (c ≠ '\n')) = l.map toupper := by
    rw [List.takeWhile_eq_self_iff]
    intro c hc
    simpa using fun e : c = '\n' => hnu (e ▸ hc)
  have hv := value_test_no_newline key (l.map toupper) hnu
  constructor
  · unfold lineValue upperLineValue
    simp only [hc1, hu1, ht1]
    by_cases hh : l.head? = some '#'
    · have : (l.map toupper ++ ['\n']).head? = some '#' := (hhead _).2 (Or.inl hh)
      simp only [this, hh, if_true]
    · have : ¬ (l.map toupper ++ ['\n']).head? = some '#' := by
        rw [hhead]
        rintro (h | ⟨_, h⟩)
        · exact hh h
        · exact absurd h (by decide)
      simp only [this, hh, if_false]
      exact hv
  · unfold lineValue upperLineValue
    simp only [hc2, hu2, ht2]
    by_cases hh : l.head? = some '#'
    · have : (l.map toupper).head? = some '#' := by
        have := (hhead []).2 (Or.inl hh)
        simpa using this
      simp only [this, hh, if_true]
    · have : ¬ (l.map toupper).head? = some '#' := by
        have h0 := hhead []
        simp only [List.append_nil] at h0
        rw [h0]
        rintro (h | ⟨_, h⟩)
        · exact hh h
        · exact absurd h (by simp)
      simp only [this, hh, if_false]
      exact hv

theorem joinLines_length (pre : List (List Char)) : pre.length ≤ (joinLines pre).length := by
  induction pre with
  | nil => simp [joinLines]
  | cons l ls ih => simp [joinLines]; omega

theorem findItem_skip (key : List Char) (rest : List Char) :
    ∀ (pre : List (List Char)) (fuel : Nat),
      (∀ l ∈ pre, IsCfgLine l ∧ upperLineValue key l = none) →
      findItem key (fuel + pre.length) (joinLines pre ++ rest) = findItem key fuel rest := by
  intro pre
  induction pre with
  | nil => intro fuel _; simp [joinLines]
  | cons l ls ih =>
    intro fuel h
    obtain ⟨hl, hv⟩ := h l (by simp)
    have hf : fgets 255 (l ++ '\n' :: (joinLines ls ++ rest))
        = some (l ++ ['\n'], joinLines ls ++ rest) := by
      unfold fgets
      rw [if_neg (by simp)]
      rw [fgetsAux_line l _ hl.1 _ (by have := hl.2.2; omega)]
    have hlv : lineValue key (l ++ ['\n']) = none := by rw [(lineValue_line key l hl).1, hv]
    have e : fuel + (l :: ls).length = (fuel + ls.length) + 1 := by simp; omega
    have e2 : joinLines (l :: ls) ++ rest = l ++ '\n' :: (joinLines ls ++ rest) := by
      simp [joinLines]
    rw [e, e2]
    simp only [findItem, hf, hlv]
    exact ih fuel (fun x hx => h x (by simp [hx]))

theorem findItem_hit (key line v post : List Char) (fuel : Nat) (hl : IsCfgLine line)
    (hv : upperLineValue key line = some v) :
    findItem key (fuel + 1) (line ++ '\n' :: post) = some v := by
  have hf : fgets 255 (line ++ '\n' :: post) = some (line ++ ['\n'], post) := by
    unfold fgets
    rw [if_neg (by simp)]
    rw [fgetsAux_line line _ hl.1 _ (by have := hl.2.2; omega)]
  simp only [findItem, hf, (lineValue_line key line hl).1, hv]

theorem findItem_last (key last : List Char) (fuel : Nat) (hl : IsCfgLine last)
    (hfuel : last.length ≤ fuel) :
    findItem key fuel last = upperLineValue key last ∨
      (last = [] ∧ findItem key fuel last = none) := by
  by_cases he : last = []
  · right
    refine ⟨he, ?_⟩
    subst he
    cases fuel <;> simp [findItem, fgets]
  · left
    obtain ⟨fuel, rfl⟩ : ∃ j, fuel = j + 1 :=
      ⟨fuel - 1, by have := List.length_pos.2 he; omega⟩
    have hf : fgets 255 last = some (last, []) := by
      unfold fgets
      rw [if_neg he]
      rw [fgetsAux_last last hl.1 _ (by have := hl.2.2; omega)]
    simp only [findItem, hf, (lineValue_line key last hl).2]
    rcases hc : upperLineValue key last with _ | v
    · cases fuel <;> simp [findItem, fgets]
    · rfl

theorem upperLineValue_nil (key : List Char) : upperLineValue key [] = none := by
  cases key <;> simp [upperLineValue, strstr, strchr]

theorem cstr_of_no_nul (s : List Char) (h : NUL ∉ s) : cstr s = s := by
  unfold cstr
  rw [List.takeWhile_eq_self_iff]
  intro x hx
  simpa using fun e : x = NUL => h (e ▸ hx)

theorem strstr_finds_key (needle : List Char) :
    ∀ hay : List Char, needle <:+: hay → (strstr hay needle).isSome = true := by
  intro hay
  induction hay with
  | nil =>
    intro h
    have : needle = [] := List.eq_nil_of_infix_nil h
    simp [strstr, this]
  | cons c hay ih =>
    intro h
    unfold strstr
    by_cases hp : needle.isPrefixOf (c :: hay) = true
    · simp [hp]
    · rw [if_neg hp]
      rcases List.infix_cons_iff.1 h with h1 | h1
      · exact absurd (List.isPrefixOf_iff_prefix.2 h1) hp
      · exact ih h1

/-- C14 as stated fails: the value copied is not the text of the line but its upper-cased
form (`datapath=./out` yields `./OUT`); and a comment line longer than 254 characters
is read in two pieces, the second of which is scanned as a line of its own and matches. -/
theorem getstrcfgitem_value_counterexample :
    getstrcfgitem (some "datapath=./out\n".data) "DATAPATH".data [] = (1, "./OUT".data) ∧
    (getstrcfgitem (some "datapath=./out\n".data) "DATAPATH".data []).2 ≠ "./out".data ∧
    longCommentLine.head? = some '#' ∧ '\n' ∉ longCommentLine ∧
    getstrcfgitem (some longCommentCfg) "DATAPATH".data [] = (1, "/Y".data) := by
  refine ⟨by decide, by decide, by decide, by decide!, by decide!⟩

theorem toupper_eq_fixed (c d : Char) (hd : toupper d = d)
    (hn : ¬ (65 ≤ d.toNat ∧ d.toNat ≤ 90)) : toupper c = d ↔ c = d := by
  constructor
  · intro h
    rcases toupper_cases c with h1 | h1
    · rw [← h1, h]
    · rw [h] at h1
      exact absurd h1 hn
  · rintro rfl
    exact hd

theorem dropWhile_map_toupper (p : Char → Bool) (hp : ∀ c, p (toupper c) = p c) (s : List Char) :
    (s.map toupper).dropWhile p = (s.dropWhile p).map toupper := by
  induction s with
  | nil => rfl
  | cons c s ih =>
    simp only [List.map_cons, List.dropWhile_cons, hp c]
    split
    · exact ih
    · rfl

theorem strchr_map_toupper (s : List Char) :
    strchr (s.map toupper) '=' = (strchr s '=').map (List.map toupper) := by
  have hp : ∀ c, (fun d => decide (d ≠ '=')) (toupper c) = (fun d => decide (d ≠ '=')) c := by
    intro c
    have := toupper_eq_fixed c '=' (by decide) (by decide)
    by_cases h : c = '='
    · subst h
      decide
    · have h2 : toupper c ≠ '=' := fun e => h (this.1 e)
      simp [h, h2]
  unfold strchr
  rw [dropWhile_map_toupper _ hp]
  rcases List.dropWhile (fun d => decide (d ≠ '=')) s with _ | ⟨x, r⟩
  · rfl
  · rfl

theorem blanks_map_toupper (s : List Char) :
    (s.map toupper).dropWhile (fun c => decide (c = ' ' ∨ c = '\t'))
      = (s.dropWhile (fun c => decide (c = ' ' ∨ c = '\t'))).map toupper := by
  apply dropWhile_map_toupper
  intro c
  have h1 := toupper_eq_fixed c ' ' (by decide) (by decide)
  have h2 := toupper_eq_fixed c '\t' (by decide) (by decide)
  simp only [h1, h2]

theorem strstr_map_toupper (key : List Char) (hupper : key.map toupper = key) :
    ∀ line : List Char,
      strstr (line.map toupper) key = (findKeyAnyCase line key).map (List.map toupper) := by
  intro line
  induction line with
  | nil =>
    simp only [List.map_nil, strstr, findKeyAnyCase]
    split_ifs <;> rfl
  | cons c line ih =>
    have hiff : key.isPrefixOf (toupper c :: line.map toupper) = true ↔
        ((c :: line).take key.length).map toupper = key.map toupper := by
      rw [List.isPrefixOf_iff_prefix, List.prefix_iff_eq_take, hupper, List.map_take,
        List.map_cons]
      exact eq_comm
    simp only [List.map_cons, strstr, findKeyAnyCase]
    by_cases h : ((c :: line).take key.length).map toupper = key.map toupper
    · rw [if_pos (hiff.2 h), if_pos h]
      rfl
    · rw [if_neg (fun e => h (hiff.1 e)), if_neg h]
      exact ih

/-- For an upper-case key, the value of a line in the words of the contract is the value
found in the upper-cased line with the key as it is. -/
theorem cfgValue_eq_upper (key line : List Char) (hupper : key.map toupper = key) :
    cfgValue key line = upperLineValue key line := by
  unfold cfgValue upperLineValue
  by_cases hh : line.head? = some '#'
  · simp only [hh, if_true]
  · simp only [hh, if_false]
    rw [strstr_map_toupper key hupper line]
    rcases findKeyAnyCase line key with _ | p
    · rfl
    · simp only [Option.map_some', ← List.map_drop, strchr_map_toupper]
      rcases strchr (List.drop key.length p) '=' with _ | pr
      · rfl
      · simp only [Option.map_some', ← List.map_drop, blanks_map_toupper, List.map_eq_nil_iff]



theorem findKeyAnyCase_isSome_iff (key : List Char) :
    ∀ line : List Char, (findKeyAnyCase line key).isSome = true ↔
      ∃ a k b : List Char, line = a ++ k ++ b ∧ k.map toupper = key.map toupper := by
  intro line
  constructor
  · induction line with
    | nil =>
      intro h
      unfold findKeyAnyCase at h
      split_ifs at h with hk
      · exact ⟨[], [], [], rfl, by rw [hk]⟩
      · cases h
    | cons c line ih =>
      intro h
      unfold findKeyAnyCase at h
      split_ifs at h with hc
      · exact ⟨[], (c :: line).take key.length, (c :: line).drop key.length,
          by simp, hc⟩
      · obtain ⟨a, k, b, e, hk⟩ := ih h
        exact ⟨c :: a, k, b, by simp [e], hk⟩
  · rintro ⟨a, k, b, e, hk⟩
    have hlen : k.length = key.length := by
      have := congrArg List.length hk
      simpa using this
    subst e
    induction a with
    | nil =>
      rcases hl : ([] ++ k ++ b : List Char) with _ | ⟨c, l⟩
      · have hk0 : k = [] := by
          have := congrArg List.length hl
          simp at this
          exact this.1
        have hkey0 : key = [] := List.length_eq_zero.1 (by rw [← hlen, hk0]; rfl)
        simp [findKeyAnyCase, hkey0]
      · have ht : (c :: l).take key.length = k := by
          rw [← hl, ← hlen]
          simp
        unfold findKeyAnyCase
        rw [if_pos (by rw [ht, hk])]
        rfl
    | cons c a ih =>
      show (findKeyAnyCase (c :: (a ++ k ++ b)) key).isSome = true
      unfold findKeyAnyCase
      split_ifs
      · rfl
      · exact ih

/-- The key has to be in upper case: the line is upper-cased and the key is not, so the
key `datapath` is not found in the line `datapath=/y`, which holds it letter for letter. -/
theorem getstrcfgitem_lower_case_key :
    getstrcfgitem (some "datapath=/y\n".data) "datapath".data [] = (0, []) ∧
    cfgValue "datapath".data "datapath=/y".data = some "/Y".data := by
  refine ⟨by decide, by decide⟩

/-- C14 amended: take an upper-case key and a text whose first lines `pre` are lines of
at most 253 characters that hold no value for the key. If the next line holds the
value `v` (the line not starting with `#`, the key found in it in any letter case, an
`=` after the key and a non-empty rest after the `=`, spaces and tabs skipped, `v` being
that rest in upper case), `getstrcfgitem` returns 1 and copies `v`, whatever follows
the line; if no line holds a value it returns 0 and leaves the target alone. A line
starting with `#` holds no value, and a line holds the key exactly when some part of
it equals the key up to the case of letters. -/
theorem getstrcfgitem_first_match_wins (key target : List Char) (pre : List (List Char))
    (hkey : NUL ∉ key) (hupper : key.map toupper = key)
    (hpre : ∀ l ∈ pre, IsCfgLine l ∧ cfgValue key l = none) :
    (∀ line v post, IsCfgLine line → cfgValue key line = some v →
      getstrcfgitem (some (joinLines pre ++ (line ++ '\n' :: post))) key target = (1, v) ∧
      getstrcfgitem (some (joinLines pre ++ line)) key target = (1, v)) ∧
    (∀ last, IsCfgLine last → cfgValue key last = none →
      getstrcfgitem (some (joinLines pre ++ last)) key target = (0, target)) ∧
    (∀ l, cfgValue key ('#' :: l) = none) ∧
    (∀ line : List Char, (findKeyAnyCase line key).isSome = true ↔
      ∃ a k b : List Char, line = a ++ k ++ b ∧ k.map toupper = key.map toupper) := by
  have hlen := joinLines_length pre
  have hpre2 : ∀ l ∈ pre, IsCfgLine l ∧ upperLineValue key l = none := by
    intro l hl
    rw [← cfgValue_eq_upper key l hupper]
    exact hpre l hl
  refine ⟨?_, ?_, ?_, findKeyAnyCase_isSome_iff key⟩
  · intro line v post hl hv
    rw [cfgValue_eq_upper key line hupper] at hv
    constructor
    · obtain ⟨fuel, hf⟩ : ∃ fuel, (joinLines pre ++ (line ++ '\n' :: post)).length
          = (fuel + 1) + pre.length :=
        ⟨(joinLines pre ++ (line ++ '\n' :: post)).length - pre.length - 1, by
          simp only [List.length_append, List.length_cons]; omega⟩
      simp only [getstrcfgitem, cstr_of_no_nul key hkey, hf, findItem_skip key _ pre _ hpre2,
        findItem_hit key line v post fuel hl hv]
    · obtain ⟨fuel, hf, hfl⟩ : ∃ fuel, (joinLines pre ++ line).length = fuel + pre.length ∧
          line.length ≤ fuel :=
        ⟨(joinLines pre ++ line).length - pre.length, by
          simp only [List.length_append]; omega, by simp only [List.length_append]; omega⟩
      have hi : findItem key fuel line = some v := by
        rcases findItem_last key line fuel hl hfl with h | ⟨h, _⟩
        · rw [h, hv]
        · rw [h, upperLineValue_nil] at hv
          cases hv
      simp only [getstrcfgitem, cstr_of_no_nul key hkey, hf, findItem_skip key _ pre _ hpre2, hi]
  · intro last hl hv
    rw [cfgValue_eq_upper key last hupper] at hv
    obtain ⟨fuel, hf, hfl⟩ : ∃ fuel, (joinLines pre ++ last).length = fuel + pre.length ∧
        last.length ≤ fuel :=
      ⟨(joinLines pre ++ last).length - pre.length, by
        simp only [List.length_append]; omega, by simp only [List.length_append]; omega⟩
    have hi : findItem key fuel last = none := by
      rcases findItem_last key last fuel hl hfl with h | ⟨_, h⟩
      · rw [h, hv]
      · exact h
    simp only [getstrcfgitem, cstr_of_no_nul key hkey, hf, findItem_skip key _ pre _ hpre2, hi]
  · intro l
    simp [cfgValue]

/-- C14 amended, on a sample text: after a comment and a device line, the line
`datapath = ./out` gives `./OUT`; the `DATAPATH=/y` line after it has no influence. -/
theorem getstrcfgitem_first_match_wins_witness :
    NUL ∉ "DATAPATH".data ∧ "DATAPATH".data.map toupper = "DATAPATH".data ∧
    (∀ l ∈ sampleCfgPre, IsCfgLine l ∧ cfgValue "DATAPATH".data l = none) ∧
    IsCfgLine sampleCfgLine ∧ cfgValue "DATAPATH".data sampleCfgLine = some "./OUT".data ∧
    getstrcfgitem (some (joinLines sampleCfgPre ++ (sampleCfgLine ++ '\n' :: sampleCfgPost)))
      "DATAPATH".data [] = (1, "./OUT".data) ∧
    joinLines sampleCfgPre ++ (sampleCfgLine ++ '\n' :: sampleCfgPost)
      = "# datapath=/x\ndevice=lsm303\ndatapath = ./out\nDATAPATH=/y\n".data :=
  ⟨by decide, by decide, by decide, by decide, by decide,
    ((getstrcfgitem_first_match_wins "DATAPATH".data [] sampleCfgPre (by decide) (by decide)
      (by decide)).1 sampleCfgLine "./OUT".data sampleCfgPost (by decide) (by decide)).1,
    by decide⟩

/-- C13 fails on the code: for the text `I2C_BUS=0` `getintcfgitem` returns 0 and leaves
`*pvalue` at its old value, so `getConfig` keeps the default bus 1; the values 2 and -5
in the same place are read. -/
theorem getintcfgitem_zero_rejected :
    getintcfgitem (some "I2C_BUS=0\n".data) "I2C_BUS".data (-1) = (0, -1) ∧
    (getConfigBus (some "I2C_BUS=0\n".data) "I2C_BUS".data defaultCfg).i2cBus = 1 ∧
    getintcfgitem (some "I2C_BUS=2\n".data) "I2C_BUS".data (-1) = (1, 2) ∧
    getintcfgitem (some "I2C_BUS=-5\n".data) "I2C_BUS".data (-1) = (1, -5) := by
  refine ⟨by decide, by decide, by decide, by decide⟩

/-- C15 fails on the code: with `DATAPATH=/var/gmt` in the configuration, `getConfig`
stores `/VAR/GMT` in `datapath`, but `writeData` still checks and creates `./data` and
opens `./data/2125_04_20.dat`. -/
theorem writeData_ignores_datapath :
    (configThenWrite (some "DATAPATH=/var/gmt\n".data) "DATAPATH".data lsmWorkData apr20
        true true).1 = "/VAR/GMT".data ∧
    (configThenWrite (some "DATAPATH=/var/gmt\n".data) "DATAPATH".data lsmWorkData apr20
        true true).2.statPath = "./data" ∧
    (configThenWrite (some "DATAPATH=/var/gmt\n".data) "DATAPATH".data lsmWorkData apr20
        true true).2.mkdirPath = some "./data" ∧
    (configThenWrite (some "DATAPATH=/var/gmt\n".data) "DATAPATH".data lsmWorkData apr20
        true true).2.openPath = "./data/2125_04_20.dat" := by
  refine ⟨by decide, ?_, ?_, ?_⟩
  · simp only [configThenWrite, writeData]; decide
  · simp only [configThenWrite, writeData]; decide
  · simp only [configThenWrite, writeData]; decide

end Gmt
